import Mathlib

/-!
Verification of the `web-bot-auth` crate (RFC 9421 HTTP message signatures
with the web-bot-auth profile) against its natural-language specification.

The development shallowly embeds the data model and the pure operations of
`crates/web-bot-auth/src/lib.rs` and `crates/web-bot-auth/src/components.rs`:
structured-field values (RFC 8941 items, inner lists, dictionaries) are
modelled as inductive types, the external `sfv` crate's serializer is
modelled directly, and each fallible Rust conversion becomes an `Except`
valued Lean function.  Wall-clock reads are passed in explicitly as an
`Option Nat` (`none` models a failed `SystemTime::duration_since` call).
-/

/-! ## ASCII helpers -/

/-- Rust `str::is_ascii`: every char has code point below 128. -/
def isAsciiStr (s : String) : Bool :=
  s.data.all (fun c => decide (c.toNat < 128))

/-- Rust `char::to_ascii_lowercase`: shift only the ASCII uppercase range. -/
def asciiLowerChar (c : Char) : Char :=
  if 65 ≤ c.toNat ∧ c.toNat ≤ 90 then Char.ofNat (c.toNat + 32) else c

/-- Rust `str::to_ascii_lowercase`. -/
def asciiLower (s : String) : String :=
  String.mk (s.data.map asciiLowerChar)

/-- Characters admissible in an RFC 8941 sf-string: printable ASCII. -/
def validSfvStringChar (c : Char) : Bool :=
  decide (32 ≤ c.toNat) && decide (c.toNat ≤ 126)

/-- Model of `sfv::String::from_string` (resp. `sfv::StringRef::from_str`):
succeeds exactly when every character is printable ASCII. -/
def sfvStringFromString (s : String) : Option String :=
  if s.data.all validSfvStringChar then some s else none

/-- Rust `str::starts_with`, as a kernel-computable prefix test. -/
def strStartsWith (s pre : String) : Bool :=
  pre.data.isPrefixOf s.data

/-! ## The `sfv` collaborator: bare items, parameters, items, lists -/

/-- Model of `sfv::BareItem` restricted to the variants the crate under
verification manipulates. -/
inductive BareItem where
  | string (s : String)
  | token (t : String)
  | integer (i : Int)
  | boolean (b : Bool)
  | byteSequence (bytes : List Nat)
deriving DecidableEq

/-- Model of `sfv::BareItem::as_string`. -/
def BareItem.asString : BareItem → Option String
  | .string s => some s
  | _ => none

/-- Model of `sfv::BareItem::as_boolean`. -/
def BareItem.asBoolean : BareItem → Option Bool
  | .boolean b => some b
  | _ => none

/-- Model of `sfv::BareItem::as_integer`. -/
def BareItem.asInteger : BareItem → Option Int
  | .integer i => some i
  | _ => none

/-- Model of `sfv::Parameters`: key-value pairs in insertion order.  A value
produced by the `sfv` parser has pairwise distinct keys. -/
abbrev Params := List (String × BareItem)

/-- Model of `IndexMap::insert` as used by `sfv::Parameters`: replace the
value in place when the key is present, append otherwise. -/
def insertParam : Params → String → BareItem → Params
  | [], k, v => [(k, v)]
  | (k', v') :: rest, k, v =>
    if k' = k then (k, v) :: rest else (k', v') :: insertParam rest k v

/-- Model of `sfv::Parameters::contains_key`. -/
def containsKey (ps : Params) (k : String) : Bool :=
  (ps.lookup k).isSome

/-- Model of `sfv::Item`: a bare item with parameters. -/
structure SfvItem where
  bareItem : BareItem
  params : Params
deriving DecidableEq

/-- Model of `sfv::InnerList`. -/
structure InnerList where
  items : List SfvItem
  params : Params
deriving DecidableEq

/-- Model of `sfv::ListEntry`. -/
inductive ListEntry where
  | item (i : SfvItem)
  | innerList (il : InnerList)
deriving DecidableEq

/-- Model of a parsed `sfv::Dictionary`: entries in order of appearance;
values produced by the parser have pairwise distinct keys. -/
abbrev Dict := List (String × ListEntry)

/-! ## The `sfv` serializer (`serialize_value`) -/

/-- Concatenation of a list of strings. -/
def strJoin : List String → String
  | [] => ""
  | s :: rest => s ++ strJoin rest

/-- Interleave a separator, as `String::intercalate` does. -/
def sepJoin (sep : String) : List String → String
  | [] => ""
  | [s] => s
  | s :: rest => s ++ sep ++ sepJoin sep rest

/-- One sextet of the standard base64 alphabet. -/
def base64Char (n : Nat) : Char :=
  if n < 26 then Char.ofNat (65 + n)
  else if n < 52 then Char.ofNat (97 + (n - 26))
  else if n < 62 then Char.ofNat (48 + (n - 52))
  else if n = 62 then '+' else '/'

/-- Standard base64 with padding, used for sf-byte-sequences. -/
def base64Encode : List Nat → String
  | [] => ""
  | [b1] =>
    let n := (b1 % 256) * 65536
    String.mk [base64Char (n / 262144 % 64), base64Char (n / 4096 % 64), '=', '=']
  | [b1, b2] =>
    let n := (b1 % 256) * 65536 + (b2 % 256) * 256
    String.mk [base64Char (n / 262144 % 64), base64Char (n / 4096 % 64),
      base64Char (n / 64 % 64), '=']
  | b1 :: b2 :: b3 :: rest =>
    let n := (b1 % 256) * 65536 + (b2 % 256) * 256 + b3 % 256
    String.mk [base64Char (n / 262144 % 64), base64Char (n / 4096 % 64),
      base64Char (n / 64 % 64), base64Char (n % 64)] ++ base64Encode rest

/-- RFC 8941 sf-string escaping: backslash-escape `DQUOTE` and backslash. -/
def escapeSfvString (s : String) : String :=
  String.mk (s.data.flatMap fun c => if c = '"' ∨ c = '\\' then ['\\', c] else [c])

/-- Serialization of a bare item, per RFC 8941 section 4.1. -/
def serializeBareItem : BareItem → String
  | .string s => "\"" ++ escapeSfvString s ++ "\""
  | .token t => t
  | .integer i => toString i
  | .boolean b => if b then "?1" else "?0"
  | .byteSequence bytes => ":" ++ base64Encode bytes ++ ":"

/-- Serialization of parameters: `;key` for boolean true, `;key=value`
otherwise, in insertion order. -/
def serializeParams (ps : Params) : String :=
  strJoin (ps.map fun p =>
    ";" ++ p.1 ++ (match p.2 with
      | .boolean true => ""
      | v => "=" ++ serializeBareItem v))

/-- Serialization of an `sfv::Item`. -/
def serializeItem (it : SfvItem) : String :=
  serializeBareItem it.bareItem ++ serializeParams it.params

/-- Serialization of an `sfv::InnerList`. -/
def serializeInnerList (il : InnerList) : String :=
  "(" ++ sepJoin " " (il.items.map serializeItem) ++ ")" ++ serializeParams il.params

/-- Serialization of a list entry. -/
def serializeListEntry : ListEntry → String
  | .item i => serializeItem i
  | .innerList il => serializeInnerList il

/-- Model of `serialize_value` on an `sfv::List`: `none` on the empty list
(an empty sf-list has no serialization), comma-joined entries otherwise. -/
def serializeList (l : List ListEntry) : Option String :=
  match l with
  | [] => none
  | _ => some (sepJoin ", " (l.map serializeListEntry))

/-! ## Component model (`components.rs`) -/

/-- `HTTPFieldParameters` from `components.rs`. -/
inductive HTTPFieldParameters where
  | Sf
  | Key (k : String)
  | Bs
  | Tr
  | Req
deriving DecidableEq

/-- `QueryParamParameters` from `components.rs`. -/
inductive QueryParamParameters where
  | Name (s : String)
  | Req
deriving DecidableEq

/-- `HTTPField` from `components.rs`: an HTTP header reference with its
ordered parameter sequence (`HTTPFieldParametersSet`). -/
structure HTTPField where
  name : String
  parameters : List HTTPFieldParameters
deriving DecidableEq

/-- `DerivedComponent` from `components.rs`. -/
inductive DerivedComponent where
  | Authority (req : Bool)
  | TargetUri (req : Bool)
  | RequestTarget (req : Bool)
  | Method (req : Bool)
  | Path (req : Bool)
  | Scheme (req : Bool)
  | Query (req : Bool)
  | QueryParams (parameters : List QueryParamParameters)
  | Status (req : Bool)
deriving DecidableEq

/-- `CoveredComponent` from `components.rs`. -/
inductive CoveredComponent where
  | HTTP (f : HTTPField)
  | Derived (d : DerivedComponent)
deriving DecidableEq

/-- `WebBotAuthError` from `lib.rs`. -/
inductive WebBotAuthError where
  | SignatureIsExpired
  | NotImplemented
deriving DecidableEq

/-- `ImplementationError` from `lib.rs` (the `sfv::Error` payload of
`ImpossibleSfvError` and the `SystemTimeError` payload of `TimeError` carry
no information the claims need). -/
inductive ImplementationError where
  | ImpossibleSfvError
  | ParsingError (msg : String)
  | LookupError (c : CoveredComponent)
  | UnsupportedAlgorithm
  | NoSuchKey
  | InvalidKeyLength
  | InvalidSignatureLength
  | FailedToVerify
  | NonAsciiContentFound
  | SignatureParamsSerialization
  | TimeError
  | WebBotAuth (e : WebBotAuthError)
deriving DecidableEq

/-- Loop body of `TryFrom<sfv::Parameters> for HTTPFieldParametersSet`
(`components.rs` lines 40-132), with the `bs_seen` / `sf_seen` / `key_seen`
flags made explicit recursion arguments. -/
def httpParamsFromSfv : Params → Bool → Bool → Bool →
    Except ImplementationError (List HTTPFieldParameters)
  | [], _, _, _ => .ok []
  | (key, bareItem) :: rest, bs_seen, sf_seen, key_seen =>
    if key = "sf" then
      match bareItem.asBoolean with
      | none => .error (.ParsingError
          "sf parameter was present on HTTP field component, but not a boolean")
      | some b =>
        if b then
          if bs_seen || key_seen then
            .error (.ParsingError "`bs`, `key` and `sf` parameter not simultaneously allowed")
          else (httpParamsFromSfv rest bs_seen true key_seen).map (.Sf :: ·)
        else httpParamsFromSfv rest bs_seen sf_seen key_seen
    else if key = "bs" then
      match bareItem.asBoolean with
      | none => .error (.ParsingError
          "bs parameter was present on HTTP field component, but not a boolean")
      | some b =>
        if b then
          if sf_seen || key_seen then
            .error (.ParsingError "`bs`, `key` and `sf` parameter not simultaneously allowed")
          else (httpParamsFromSfv rest true sf_seen key_seen).map (.Bs :: ·)
        else httpParamsFromSfv rest bs_seen sf_seen key_seen
    else if key = "tr" then
      match bareItem.asBoolean with
      | none => .error (.ParsingError
          "tr parameter was present on HTTP field component, but not a boolean")
      | some b =>
        if b then (httpParamsFromSfv rest bs_seen sf_seen key_seen).map (.Tr :: ·)
        else httpParamsFromSfv rest bs_seen sf_seen key_seen
    else if key = "req" then
      match bareItem.asBoolean with
      | none => .error (.ParsingError
          "req parameter was present on HTTP field component, but not a boolean")
      | some b =>
        if b then (httpParamsFromSfv rest bs_seen sf_seen key_seen).map (.Req :: ·)
        else httpParamsFromSfv rest bs_seen sf_seen key_seen
    else if key = "key" then
      if sf_seen || bs_seen then
        .error (.ParsingError "`bs`, `key` and `sf` parameter not simultaneously allowed")
      else
        match bareItem.asString with
        | none => .error (.ParsingError
            "key parameter was present on HTTP field component, but not a string")
        | some name => (httpParamsFromSfv rest bs_seen sf_seen true).map (.Key name :: ·)
    else
      .error (.ParsingError ("Unexpected parameter `" ++ key ++
        "` when parsing HTTP field component, only sf / bs / key / req / tr allowed"))

/-- `TryFrom<sfv::Parameters> for HTTPFieldParametersSet`: the flags start
out false. -/
def HTTPFieldParametersSet.tryFromParams (value : Params) :
    Except ImplementationError (List HTTPFieldParameters) :=
  httpParamsFromSfv value false false false

/-- Loop body of `TryFrom<HTTPFieldParametersSet> for sfv::Parameters`
(`components.rs` lines 134-212), the `req_set` / `bs_set` / `sf_set` /
`key_set` / `tr_set` flags and the parameters accumulator made explicit. -/
def httpParamsToSfv : List HTTPFieldParameters → Bool → Bool → Bool → Bool → Bool →
    Params → Except ImplementationError Params
  | [], _, _, _, _, _, acc => .ok acc
  | .Sf :: rest, req_set, bs_set, sf_set, key_set, tr_set, acc =>
    if sf_set then .error (.ParsingError "`sf` parameter not allowed as duplicate")
    else if bs_set || key_set then
      .error (.ParsingError "`bs`, `key` and `sf` parameter not simultaneously allowed")
    else httpParamsToSfv rest req_set bs_set true key_set tr_set
      (insertParam acc "sf" (.boolean true))
  | .Bs :: rest, req_set, bs_set, sf_set, key_set, tr_set, acc =>
    if bs_set then .error (.ParsingError "`bs` parameter not allowed as duplicate")
    else if sf_set || key_set then
      .error (.ParsingError "`bs`, `key` and `sf` parameter not simultaneously allowed")
    else httpParamsToSfv rest req_set true sf_set key_set tr_set
      (insertParam acc "bs" (.boolean true))
  | .Tr :: rest, req_set, bs_set, sf_set, key_set, tr_set, acc =>
    if tr_set then .error (.ParsingError "`tr` parameter not allowed as duplicate")
    else httpParamsToSfv rest req_set bs_set sf_set key_set true
      (insertParam acc "tr" (.boolean true))
  | .Req :: rest, req_set, bs_set, sf_set, key_set, tr_set, acc =>
    if req_set then .error (.ParsingError "`tr` parameter not allowed as duplicate")
    else httpParamsToSfv rest true bs_set sf_set key_set tr_set
      (insertParam acc "req" (.boolean true))
  | .Key name :: rest, req_set, bs_set, sf_set, key_set, tr_set, acc =>
    if key_set then .error (.ParsingError "`key` parameter not allowed as duplicate")
    else
      match sfvStringFromString name with
      | none => .error .ImpossibleSfvError
      | some s => httpParamsToSfv rest req_set bs_set sf_set true tr_set
          (insertParam acc "key" (.string s))

/-- `TryFrom<HTTPFieldParametersSet> for sfv::Parameters`. -/
def HTTPFieldParametersSet.tryIntoParams (value : List HTTPFieldParameters) :
    Except ImplementationError Params :=
  httpParamsToSfv value false false false false false []

/-- `TryFrom<HTTPField> for sfv::Item` (`components.rs` lines 214-232): the
name must be a valid sf-string (serialized verbatim, no lowercasing), the
parameter sequence is converted by `HTTPFieldParametersSet.tryIntoParams`. -/
def HTTPField.tryIntoItem (value : HTTPField) : Except ImplementationError SfvItem := do
  let name ← match sfvStringFromString value.name with
    | some s => Except.ok s
    | none => Except.error (.ParsingError
        ("Could not coerce HTTP field name `" ++ value.name ++ "` into a valid sfv Item"))
  let ps ← HTTPFieldParametersSet.tryIntoParams value.parameters
  .ok ⟨.string name, ps⟩

/-- Loop body of `TryFrom<sfv::Parameters> for QueryParamParametersSet`
(`components.rs` lines 301-353), the `req_seen` / `name_seen` flags made
explicit. -/
def queryParamsFromSfv : Params → Bool → Bool →
    Except ImplementationError (List QueryParamParameters)
  | [], _, _ => .ok []
  | (key, bareItem) :: rest, req_seen, name_seen =>
    if key = "req" then
      match bareItem.asBoolean with
      | none => .error (.ParsingError
          "`req` parameter was present on `@query-param`, but not a boolean")
      | some b =>
        if b then
          if req_seen then .error (.ParsingError "`req` parameter not allowed as duplicate")
          else (queryParamsFromSfv rest true name_seen).map (.Req :: ·)
        else queryParamsFromSfv rest req_seen name_seen
    else if key = "name" then
      match bareItem.asString with
      | none => .error (.ParsingError
          "`name` parameter was present on `@query-param`, but not a string")
      | some name =>
        if name_seen then .error (.ParsingError "`name` parameter not allowed as duplicate")
        else (queryParamsFromSfv rest req_seen true).map (.Name name :: ·)
    else
      .error (.ParsingError ("Unexpected parameter `" ++ key ++
        "` when parsing `@query-param, only name / req allowed"))

/-- `TryFrom<sfv::Parameters> for QueryParamParametersSet`. -/
def QueryParamParametersSet.tryFromParams (value : Params) :
    Except ImplementationError (List QueryParamParameters) :=
  queryParamsFromSfv value false false

/-- Loop body of `TryFrom<QueryParamParametersSet> for sfv::Parameters`
(`components.rs` lines 355-392). -/
def queryParamsToSfv : List QueryParamParameters → Bool → Bool → Params →
    Except ImplementationError Params
  | [], _, _, acc => .ok acc
  | .Req :: rest, req_seen, name_seen, acc =>
    if req_seen then .error (.ParsingError "`req` parameter not allowed as duplicate")
    else queryParamsToSfv rest true name_seen (insertParam acc "req" (.boolean true))
  | .Name name :: rest, req_seen, name_seen, acc =>
    if name_seen then .error (.ParsingError "`name` parameter not allowed as duplicate")
    else
      match sfvStringFromString name with
      | none => .error (.ParsingError
          ("Could not coerce `@query-param` parameter `" ++ name ++
            "` into a valid sfv Parameter"))
      | some s => queryParamsToSfv rest req_seen true (insertParam acc "name" (.string s))

/-- `TryFrom<QueryParamParametersSet> for sfv::Parameters`. -/
def QueryParamParametersSet.tryIntoParams (value : List QueryParamParameters) :
    Except ImplementationError Params :=
  queryParamsToSfv value false false []

/-- The local `template` helper of `TryFrom<DerivedComponent> for sfv::Item`:
`req` is emitted only when true. -/
def derivedTemplate (name : String) (req : Bool) : Except ImplementationError SfvItem :=
  let parameters : Params := if req then insertParam [] "req" (.boolean true) else []
  match sfvStringFromString name with
  | none => .error .ImpossibleSfvError
  | some s => .ok ⟨.string s, parameters⟩

/-- `TryFrom<DerivedComponent> for sfv::Item` (`components.rs` lines
394-450). -/
def DerivedComponent.tryIntoItem : DerivedComponent → Except ImplementationError SfvItem
  | .Authority req => derivedTemplate "@authority" req
  | .Method req => derivedTemplate "@method" req
  | .Path req => derivedTemplate "@path" req
  | .TargetUri req => derivedTemplate "@target-uri" req
  | .RequestTarget req => derivedTemplate "@request-target" req
  | .Scheme req => derivedTemplate "@scheme" req
  | .Status req => derivedTemplate "@status" req
  | .Query req => derivedTemplate "@query" req
  | .QueryParams parameters =>
    match sfvStringFromString "@query-param" with
    | none => .error .ImpossibleSfvError
    | some s => do
      let ps ← QueryParamParametersSet.tryIntoParams parameters
      .ok ⟨.string s, ps⟩

/-- The local `fetch_req` helper of `TryFrom<sfv::Item> for CoveredComponent`
(`components.rs` lines 467-491): an empty parameter set yields `false`, a
single `req=<boolean>` entry yields that boolean, everything else errors. -/
def fetch_req (params : Params) (componentName : String) :
    Except ImplementationError Bool :=
  match params with
  | [] => .ok false
  | [(key, val)] =>
    if key = "req" then
      match val.asBoolean with
      | some b => .ok b
      | none => .error (.ParsingError ("`req` parameter was present on `" ++
          componentName ++ "`, but not a boolean"))
    else .error (.ParsingError ("Encountered another parameter name on `" ++
        componentName ++ "`, but only `req` allowed"))
  | _ => .error (.ParsingError ("Encountered multiple parameter names on `" ++
      componentName ++ "`, but only `req` allowed"))

/-- `TryFrom<sfv::Item> for CoveredComponent` (`components.rs` lines
463-549): the bare item must be a string; `@`-prefixed strings must match a
known derived component; everything else is an HTTP field whose name is
ASCII-lowercased. -/
def CoveredComponent.tryFromItem (value : SfvItem) :
    Except ImplementationError CoveredComponent :=
  match value.bareItem with
  | .string innerString =>
    if innerString = "@authority" then
      (fetch_req value.params "@authority").map (fun r => .Derived (.Authority r))
    else if innerString = "@method" then
      (fetch_req value.params "@method").map (fun r => .Derived (.Method r))
    else if innerString = "@path" then
      (fetch_req value.params "@path").map (fun r => .Derived (.Path r))
    else if innerString = "@target-uri" then
      (fetch_req value.params "@target-uri").map (fun r => .Derived (.TargetUri r))
    else if innerString = "@scheme" then
      (fetch_req value.params "@scheme").map (fun r => .Derived (.Scheme r))
    else if innerString = "@status" then
      (fetch_req value.params "@status").map (fun r => .Derived (.Status r))
    else if innerString = "@query" then
      (fetch_req value.params "@query").map (fun r => .Derived (.Query r))
    else if innerString = "@request-target" then
      (fetch_req value.params "@request-target").map (fun r => .Derived (.RequestTarget r))
    else if innerString = "@query-param" then
      (QueryParamParametersSet.tryFromParams value.params).map
        (fun qp => .Derived (.QueryParams qp))
    else if strStartsWith innerString "@" then
      .error (.ParsingError ("Encountered invald derived component name `" ++
        innerString ++ "`, consult RFC 9421 for valid names"))
    else
      (HTTPFieldParametersSet.tryFromParams value.params).map
        (fun prs => .HTTP ⟨asciiLower innerString, prs⟩)
  | _ => .error (.ParsingError
      "Expected a stringified sfv::BareItem when parsing into a CoveredComponent, but encountered a different type")

/-- The per-component item conversion performed inside
`SignatureBase::into_ascii` (`lib.rs` lines 210-213). -/
def CoveredComponent.tryIntoItem : CoveredComponent → Except ImplementationError SfvItem
  | .HTTP http => http.tryIntoItem
  | .Derived derived => derived.tryIntoItem

/-! ## Signature parameters (`lib.rs`) -/

/-- `Algorithm` from `lib.rs`. -/
inductive Algorithm where
  | Ed25519
deriving DecidableEq

/-- `ParameterDetails` from `lib.rs`. -/
structure ParameterDetails where
  algorithm : Option Algorithm
  created : Option Int
  expires : Option Int
  keyid : Option String
  nonce : Option String
  tag : Option String
deriving DecidableEq

/-- `SignatureParams` from `lib.rs`: the raw parameter dictionary plus the
typed projection. -/
structure SignatureParams where
  raw : Params
  details : ParameterDetails
deriving DecidableEq

/-- One iteration of the loop in `From<sfv::Parameters> for SignatureParams`
(`lib.rs` lines 118-143): a recognized key overwrites its projection field
with the (possibly `none`) coerced value; unknown keys are ignored. -/
def updateDetails (d : ParameterDetails) (p : String × BareItem) : ParameterDetails :=
  if p.1 = "alg" then
    { d with algorithm := (p.2.asString).bind fun s =>
        if s = "ed25519" then some .Ed25519 else none }
  else if p.1 = "keyid" then { d with keyid := p.2.asString }
  else if p.1 = "tag" then { d with tag := p.2.asString }
  else if p.1 = "nonce" then { d with nonce := p.2.asString }
  else if p.1 = "created" then { d with created := p.2.asInteger }
  else if p.1 = "expires" then { d with expires := p.2.asInteger }
  else d

/-- `From<sfv::Parameters> for SignatureParams` (`lib.rs` lines 107-150):
total, never errors; retains the raw dictionary verbatim. -/
def SignatureParams.fromParams (value : Params) : SignatureParams :=
  { raw := value
    details := value.foldl updateDetails ⟨none, none, none, none, none, none⟩ }

/-! ## Signature base (`lib.rs`) -/

/-- `SignatureBase` from `lib.rs`.  Its `components` field is an
`IndexMap<CoveredComponent, String>`, modelled by its entry list in
iteration order. -/
structure SignatureBase where
  components : List (CoveredComponent × String)
  parameters : SignatureParams
deriving DecidableEq

/-- The component loop of `SignatureBase::into_ascii` (`lib.rs` lines
209-222): convert each covered component to an `sfv::Item`, emit one
`<serialized item>: <value>` line per component, and collect the items for
the `@signature-params` line. -/
def intoAsciiLines : List (CoveredComponent × String) →
    Except ImplementationError (String × List SfvItem)
  | [] => .ok ("", [])
  | (component, serializedValue) :: rest => do
    let sfvItem ← component.tryIntoItem
    let (s, items) ← intoAsciiLines rest
    .ok (serializeItem sfvItem ++ ": " ++ serializedValue ++ "\n" ++ s,
      sfvItem :: items)

/-- `SignatureBase::into_ascii` (`lib.rs` lines 204-238): assemble the
component lines, append the `"@signature-params": ` line (the serialization
of a one-entry sf-list holding an inner list of the component items with the
raw parameters), and require the result to be pure ASCII. -/
def SignatureBase.into_ascii (sb : SignatureBase) :
    Except ImplementationError (String × String) := do
  let (lines, items) ← intoAsciiLines sb.components
  let signatureParamsLine ← match serializeList
      [.innerList ⟨items, sb.parameters.raw⟩] with
    | some s => Except.ok s
    | none => Except.error .SignatureParamsSerialization
  let output := lines ++ "\"@signature-params\": " ++ signatureParamsLine
  if isAsciiStr output then .ok (output, signatureParamsLine)
  else .error .NonAsciiContentFound

/-- `SignatureBase::is_expired` (`lib.rs` lines 244-257).  The wall clock is
passed in as `now`: `some secs` models a successful
`SystemTime::now().duration_since(UNIX_EPOCH)` returning that many whole
seconds, `none` models the `Err(_)` branch.  `i64::try_from(u64)` fails
exactly when the value is at least `2 ^ 63`. -/
def SignatureBase.is_expired (sb : SignatureBase) (now : Option Nat) : Option Bool :=
  sb.parameters.details.expires.map fun expires =>
    if expires ≤ 0 then true
    else
      match now with
      | some secs =>
        if secs < 2 ^ 63 then decide ((secs : Int) ≥ expires) else true
      | none => true

/-! ## Verifier drivers (`lib.rs`) -/

/-- `ParsedLabel` from `lib.rs`. -/
structure ParsedLabel where
  signature : List Nat
  base : SignatureBase
deriving DecidableEq

/-- `MessageVerifier` from `lib.rs`. -/
structure MessageVerifier where
  parsed : ParsedLabel
  algorithm : Algorithm
deriving DecidableEq

/-- The `filter_map` step of `MessageVerifier::parse` (`lib.rs` lines
502-506): keep only the dictionary entries whose value is an inner list. -/
def innerListsOf (d : Dict) : List (String × InnerList) :=
  d.filterMap fun le =>
    match le.2 with
    | .innerList il => some (le.1, il)
    | .item _ => none

/-- The `Signature` dictionary lookup of `MessageVerifier::parse` (`lib.rs`
lines 512-531): the selected label must be present and hold an item whose
bare value is a byte sequence. -/
def extractSignature (signatureHeader : Dict) (label : String) :
    Except ImplementationError (List Nat) :=
  match signatureHeader.lookup label with
  | none => .error (.ParsingError "No matching signature found from label")
  | some (.item it) =>
    match it.bareItem with
    | .byteSequence sequence => .ok sequence
    | _ => .error (.ParsingError
        "Invalid type for signature found, expected byte sequence")
  | some (.innerList _) => .error (.ParsingError
      "Invalid type for signature found, expected byte sequence")

/-- `TryFrom<sfv::InnerList> for SignatureBaseBuilder` (`lib.rs` lines
157-172): convert every item of the inner list into a covered component and
the inner list parameters into `SignatureParams`. -/
def signatureBaseBuilderFromInnerList (value : InnerList) :
    Except ImplementationError (List CoveredComponent × SignatureParams) := do
  let components ← value.items.mapM CoveredComponent.tryFromItem
  .ok (components, SignatureParams.fromParams value.params)

/-- `SignatureBaseBuilder::into_signature_base` (`lib.rs` lines 174-192):
resolve every covered component through the message's `lookup_component`;
a missing value is a `LookupError` naming the component. -/
def intoSignatureBase (components : List CoveredComponent)
    (parameters : SignatureParams)
    (lookupComponent : CoveredComponent → Option String) :
    Except ImplementationError SignatureBase := do
  let resolved ← components.mapM fun component =>
    match lookupComponent component with
    | some serializedValue => Except.ok (component, serializedValue)
    | none => Except.error (.LookupError component)
  .ok ⟨resolved, parameters⟩

/-- `MessageVerifier::parse` (`lib.rs` lines 463-549), taking the already
text-parsed `Signature` / `Signature-Input` dictionaries (`none` models an
absent header; text-level parsing belongs to the external `sfv` parser) and
the message's `lookup_component` as explicit arguments. -/
def MessageVerifier.parse (signatureHeaderOpt signatureInputOpt : Option Dict)
    (lookupComponent : CoveredComponent → Option String)
    (alg : Option Algorithm) (pick : String × InnerList → Bool) :
    Except ImplementationError MessageVerifier := do
  let signatureHeader ← match signatureHeaderOpt with
    | some d => Except.ok d
    | none => Except.error (.ParsingError "No `Signature` header value ")
  let signatureInput ← match signatureInputOpt with
    | some d => Except.ok d
    | none => Except.error (.ParsingError "No `Signature-Input` value ")
  let (label, innerlist) ← match (innerListsOf signatureInput).find? pick with
    | some p => Except.ok p
    | none => Except.error (.ParsingError "No matching label and signature base found")
  let signature ← extractSignature signatureHeader label
  let (components, parameters) ← signatureBaseBuilderFromInnerList innerlist
  let base ← intoSignatureBase components parameters lookupComponent
  let algorithm ← match alg with
    | some algorithm => Except.ok algorithm
    | none =>
      match base.parameters.details.algorithm with
      | some a => Except.ok a
      | none => Except.error .UnsupportedAlgorithm
  .ok ⟨⟨signature, base⟩, algorithm⟩

/-- `MessageVerifier::is_expired` (`lib.rs` lines 600-602). -/
def MessageVerifier.is_expired (v : MessageVerifier) (now : Option Nat) : Option Bool :=
  v.parsed.base.is_expired now

/-- `WebBotAuthVerifier` from `lib.rs`. -/
structure WebBotAuthVerifier where
  message_verifier : MessageVerifier
  key_directory : Option String
deriving DecidableEq

/-- The key-directory resolution of `WebBotAuthVerifier::parse` (`lib.rs`
lines 641-648): keep the `Signature-Agent` item's bare string when it starts
with `https` or `data`.  The argument is the already text-parsed
`Signature-Agent` item (`none` models an absent header). -/
def keyDirectoryOf (signatureAgent : Option SfvItem) : Option String :=
  signatureAgent.bind fun item =>
    (item.bareItem.asString).bind fun link =>
      if strStartsWith link "https" || strStartsWith link "data" then some link else none

/-- The selector predicate of `WebBotAuthVerifier::parse` (`lib.rs` lines
651-666). -/
def webBotAuthPick (key_directory : Option String) (p : String × InnerList) : Bool :=
  containsKey p.2.params "keyid"
    && containsKey p.2.params "tag"
    && containsKey p.2.params "expires"
    && containsKey p.2.params "created"
    && (match (p.2.params.lookup "tag").bind BareItem.asString with
        | some tag => decide (tag = "web-bot-auth")
        | none => false)
    && p.2.items.any fun item =>
        decide (item = ⟨.string "@authority", []⟩)
          || (key_directory.isSome && decide (item = ⟨.string "signature-agent", []⟩))

/-- `WebBotAuthVerifier::parse` (`lib.rs` lines 628-672). -/
def WebBotAuthVerifier.parse (signatureAgent : Option SfvItem)
    (signatureHeaderOpt signatureInputOpt : Option Dict)
    (lookupComponent : CoveredComponent → Option String)
    (algorithm : Option Algorithm) :
    Except ImplementationError WebBotAuthVerifier := do
  let key_directory := keyDirectoryOf signatureAgent
  let message_verifier ← MessageVerifier.parse signatureHeaderOpt signatureInputOpt
    lookupComponent algorithm (webBotAuthPick key_directory)
  .ok ⟨message_verifier, key_directory⟩

/-- `WebBotAuthVerifier::possibly_insecure` (`lib.rs` lines 710-714):
`is_expired().unwrap_or(false)`. -/
def WebBotAuthVerifier.possibly_insecure (v : WebBotAuthVerifier)
    (now : Option Nat) : Bool :=
  (v.message_verifier.is_expired now).getD false

/-! ## General helper lemmas -/

/-- The last occurrence of a key in a parameter list, i.e. the winning
assignment when the pairs are processed in order. -/
def lastOcc (k : String) (ps : Params) : Option BareItem :=
  (ps.reverse.find? fun p => p.1 == k).map Prod.snd

theorem updateDetails_keyid (d : ParameterDetails) (p : String × BareItem) :
    (updateDetails d p).keyid = if p.1 = "keyid" then p.2.asString else d.keyid := by
  unfold updateDetails
  split_ifs <;> simp_all

theorem updateDetails_nonce (d : ParameterDetails) (p : String × BareItem) :
    (updateDetails d p).nonce = if p.1 = "nonce" then p.2.asString else d.nonce := by
  unfold updateDetails
  split_ifs <;> simp_all

theorem updateDetails_tag (d : ParameterDetails) (p : String × BareItem) :
    (updateDetails d p).tag = if p.1 = "tag" then p.2.asString else d.tag := by
  unfold updateDetails
  split_ifs <;> simp_all

theorem updateDetails_created (d : ParameterDetails) (p : String × BareItem) :
    (updateDetails d p).created = if p.1 = "created" then p.2.asInteger else d.created := by
  unfold updateDetails
  split_ifs <;> simp_all

theorem updateDetails_expires (d : ParameterDetails) (p : String × BareItem) :
    (updateDetails d p).expires = if p.1 = "expires" then p.2.asInteger else d.expires := by
  unfold updateDetails
  split_ifs <;> simp_all

theorem updateDetails_algorithm (d : ParameterDetails) (p : String × BareItem) :
    (updateDetails d p).algorithm = if p.1 = "alg" then
      ((p.2.asString).bind fun s => if s = "ed25519" then some .Ed25519 else none)
    else d.algorithm := by
  unfold updateDetails
  split_ifs <;> simp_all

theorem foldl_updateDetails_keyid (ps : Params) (d : ParameterDetails) :
    (ps.foldl updateDetails d).keyid =
      match lastOcc "keyid" ps with
      | some v => v.asString
      | none => d.keyid := by
  induction ps generalizing d with
  | nil => simp [lastOcc]
  | cons p rest ih =>
    rw [List.foldl_cons, ih]
    simp only [lastOcc, List.reverse_cons, List.find?_append]
    cases h : rest.reverse.find? fun q => q.1 == "keyid" with
    | some q => simp [h]
    | none =>
      simp only [h, Option.none_orElse, List.find?_cons, List.find?_nil]
      by_cases hk : p.1 = "keyid"
      · simp [hk, updateDetails_keyid]
      · have hb : (p.1 == "keyid") = false := beq_eq_false_iff_ne.mpr hk
        simp [hb, hk, updateDetails_keyid]

theorem foldl_updateDetails_nonce (ps : Params) (d : ParameterDetails) :
    (ps.foldl updateDetails d).nonce =
      match lastOcc "nonce" ps with
      | some v => v.asString
      | none => d.nonce := by
  induction ps generalizing d with
  | nil => simp [lastOcc]
  | cons p rest ih =>
    rw [List.foldl_cons, ih]
    simp only [lastOcc, List.reverse_cons, List.find?_append]
    cases h : rest.reverse.find? fun q => q.1 == "nonce" with
    | some q => simp [h]
    | none =>
      simp only [h, Option.none_orElse, List.find?_cons, List.find?_nil]
      by_cases hk : p.1 = "nonce"
      · simp [hk, updateDetails_nonce]
      · have hb : (p.1 == "nonce") = false := beq_eq_false_iff_ne.mpr hk
        simp [hb, hk, updateDetails_nonce]

theorem foldl_updateDetails_tag (ps : Params) (d : ParameterDetails) :
    (ps.foldl updateDetails d).tag =
      match lastOcc "tag" ps with
      | some v => v.asString
      | none => d.tag := by
  induction ps generalizing d with
  | nil => simp [lastOcc]
  | cons p rest ih =>
    rw [List.foldl_cons, ih]
    simp only [lastOcc, List.reverse_cons, List.find?_append]
    cases h : rest.reverse.find? fun q => q.1 == "tag" with
    | some q => simp [h]
    | none =>
      simp only [h, Option.none_orElse, List.find?_cons, List.find?_nil]
      by_cases hk : p.1 = "tag"
      · simp [hk, updateDetails_tag]
      · have hb : (p.1 == "tag") = false := beq_eq_false_iff_ne.mpr hk
        simp [hb, hk, updateDetails_tag]

theorem foldl_updateDetails_created (ps : Params) (d : ParameterDetails) :
    (ps.foldl updateDetails d).created =
      match lastOcc "created" ps with
      | some v => v.asInteger
      | none => d.created := by
  induction ps generalizing d with
  | nil => simp [lastOcc]
  | cons p rest ih =>
    rw [List.foldl_cons, ih]
    simp only [lastOcc, List.reverse_cons, List.find?_append]
    cases h : rest.reverse.find? fun q => q.1 == "created" with
    | some q => simp [h]
    | none =>
      simp only [h, Option.none_orElse, List.find?_cons, List.find?_nil]
      by_cases hk : p.1 = "created"
      · simp [hk, updateDetails_created]
      · have hb : (p.1 == "created") = false := beq_eq_false_iff_ne.mpr hk
        simp [hb, hk, updateDetails_created]

theorem foldl_updateDetails_expires (ps : Params) (d : ParameterDetails) :
    (ps.foldl updateDetails d).expires =
      match lastOcc "expires" ps with
      | some v => v.asInteger
      | none => d.expires := by
  induction ps generalizing d with
  | nil => simp [lastOcc]
  | cons p rest ih =>
    rw [List.foldl_cons, ih]
    simp only [lastOcc, List.reverse_cons, List.find?_append]
    cases h : rest.reverse.find? fun q => q.1 == "expires" with
    | some q => simp [h]
    | none =>
      simp only [h, Option.none_orElse, List.find?_cons, List.find?_nil]
      by_cases hk : p.1 = "expires"
      · simp [hk, updateDetails_expires]
      · have hb : (p.1 == "expires") = false := beq_eq_false_iff_ne.mpr hk
        simp [hb, hk, updateDetails_expires]

theorem foldl_updateDetails_algorithm (ps : Params) (d : ParameterDetails) :
    (ps.foldl updateDetails d).algorithm =
      match lastOcc "alg" ps with
      | some v => (v.asString).bind fun s => if s = "ed25519" then some .Ed25519 else none
      | none => d.algorithm := by
  induction ps generalizing d with
  | nil => simp [lastOcc]
  | cons p rest ih =>
    rw [List.foldl_cons, ih]
    simp only [lastOcc, List.reverse_cons, List.find?_append]
    cases h : rest.reverse.find? fun q => q.1 == "alg" with
    | some q => simp [h]
    | none =>
      simp only [h, Option.none_orElse, List.find?_cons, List.find?_nil]
      by_cases hk : p.1 = "alg"
      · simp [hk, updateDetails_algorithm]
      · have hb : (p.1 == "alg") = false := beq_eq_false_iff_ne.mpr hk
        simp [hb, hk, updateDetails_algorithm]

/-- Claim C10: converting an arbitrary SFV parameter dictionary into the
`SignatureParams` typed projection is total (the function below is a plain
function, mirroring the infallible `From` impl); the raw dictionary is
retained verbatim; and each projection field is determined by the last
occurrence of its key, with a type-mismatched value yielding `none` (for
`alg` additionally any string other than `"ed25519"` yields `none`). -/
theorem signatureParams_from_total_last_wins (ps : Params) :
    (SignatureParams.fromParams ps).raw = ps ∧
    (SignatureParams.fromParams ps).details.keyid =
      (lastOcc "keyid" ps).bind BareItem.asString ∧
    (SignatureParams.fromParams ps).details.nonce =
      (lastOcc "nonce" ps).bind BareItem.asString ∧
    (SignatureParams.fromParams ps).details.tag =
      (lastOcc "tag" ps).bind BareItem.asString ∧
    (SignatureParams.fromParams ps).details.created =
      (lastOcc "created" ps).bind BareItem.asInteger ∧
    (SignatureParams.fromParams ps).details.expires =
      (lastOcc "expires" ps).bind BareItem.asInteger ∧
    (SignatureParams.fromParams ps).details.algorithm =
      (lastOcc "alg" ps).bind fun v =>
        (v.asString).bind fun s => if s = "ed25519" then some .Ed25519 else none := by
  refine ⟨rfl, ?_, ?_, ?_, ?_, ?_, ?_⟩ <;>
    simp only [SignatureParams.fromParams, foldl_updateDetails_keyid,
      foldl_updateDetails_nonce, foldl_updateDetails_tag, foldl_updateDetails_created,
      foldl_updateDetails_expires, foldl_updateDetails_algorithm] <;>
    (cases h : lastOcc _ ps <;> simp [h])

/-- Claim C9: `is_expired` is `none` exactly when `expires` is absent;
otherwise it is `some true` exactly when `expires <= 0`, or the wall-clock
read failed, or the seconds value overflows `i64`, or the current time is at
least `expires`; and `possibly_insecure` is true exactly when `is_expired`
is `some true`. -/
theorem is_expired_characterization (sb : SignatureBase) (now : Option Nat) :
    (sb.is_expired now = none ↔ sb.parameters.details.expires = none) ∧
    (∀ e : Int, sb.parameters.details.expires = some e →
      (sb.is_expired now = some true ↔
        (e ≤ 0 ∨ now = none ∨ ∃ s : Nat, now = some s ∧ (2 ^ 63 ≤ s ∨ e ≤ (s : Int))))) ∧
    (∀ v : WebBotAuthVerifier, v.message_verifier.parsed.base = sb →
      (v.possibly_insecure now = true ↔ sb.is_expired now = some true)) := by
  refine ⟨?_, ?_, ?_⟩
  · unfold SignatureBase.is_expired
    cases sb.parameters.details.expires <;> simp
  · intro e he
    unfold SignatureBase.is_expired
    rw [he]
    simp only [Option.map_some', Option.some_inj]
    by_cases h0 : e ≤ 0
    · simp [h0]
    · simp only [if_neg h0]
      cases now with
      | none => simp [h0]
      | some s =>
        by_cases hs : s < 2 ^ 63
        · simp only [if_pos hs, decide_eq_true_eq, ge_iff_le]
          constructor
          · intro h
            exact Or.inr (Or.inr ⟨s, rfl, Or.inr h⟩)
          · rintro (h | h | ⟨s', hs', (h | h)⟩)
            · exact absurd h h0
            · exact absurd h (by simp)
            · obtain rfl : s' = s := (Option.some_inj.mp hs').symm
              omega
            · obtain rfl : s' = s := (Option.some_inj.mp hs').symm
              exact h
        · simp only [if_neg hs, true_iff]
          exact Or.inr (Or.inr ⟨s, rfl, Or.inl (by omega)⟩)
  · intro v hv
    unfold WebBotAuthVerifier.possibly_insecure MessageVerifier.is_expired
    rw [hv]
    cases h : sb.is_expired now with
    | none => simp [h]
    | some b => cases b <;> simp [h]

/-- Witness for C9 at a concrete input: `expires = 100`, clock at `200`
seconds, so the signature is expired and `possibly_insecure` is true. -/
theorem is_expired_characterization_witness :
    (⟨[], SignatureParams.fromParams [("expires", .integer 100)]⟩ :
        SignatureBase).is_expired (some 200) = some true ∧
    ((⟨[], SignatureParams.fromParams [("expires", .integer 100)]⟩ :
        SignatureBase).is_expired (some 200) = some true ↔
      ((100 : Int) ≤ 0 ∨ (some 200 : Option Nat) = none ∨
        ∃ s : Nat, (some 200 : Option Nat) = some s ∧
          (2 ^ 63 ≤ s ∨ (100 : Int) ≤ (s : Int)))) :=
  ⟨by decide,
    (is_expired_characterization
      ⟨[], SignatureParams.fromParams [("expires", .integer 100)]⟩
      (some 200)).2.1 100 (by decide)⟩

theorem fetch_req_ok_cases {ps : Params} {name : String} {b : Bool}
    (h : fetch_req ps name = .ok b) :
    (ps = [] ∧ b = false) ∨ (∃ v, ps = [("req", v)] ∧ v.asBoolean = some b) := by
  match ps with
  | [] =>
    left
    refine ⟨rfl, ?_⟩
    simpa [fetch_req] using h.symm
  | [(key, val)] =>
    right
    by_cases hk : key = "req"
    · subst hk
      cases hv : val.asBoolean with
      | some b' =>
        refine ⟨val, rfl, ?_⟩
        rw [hv]
        simp only [fetch_req, if_pos rfl, hv] at h
        exact congrArg some (Except.ok.inj h)
      | none => simp [fetch_req, hv] at h
    · simp [fetch_req, hk] at h
  | p1 :: p2 :: rest => simp [fetch_req] at h

theorem asBoolean_eq_some {v : BareItem} {b : Bool} (h : v.asBoolean = some b) :
    v = .boolean b := by
  cases v <;> simp_all [BareItem.asBoolean]

theorem c5_generic (name : String) (mk : Bool → CoveredComponent)
    (hred : ∀ ps : Params, CoveredComponent.tryFromItem ⟨.string name, ps⟩ =
      (fetch_req ps name).map mk) (ps : Params) :
    ((∃ c, CoveredComponent.tryFromItem ⟨.string name, ps⟩ = .ok c) ↔
      (ps = [] ∨ ∃ b, ps = [("req", .boolean b)])) ∧
    (ps = [] → CoveredComponent.tryFromItem ⟨.string name, ps⟩ = .ok (mk false)) ∧
    (∀ b, ps = [("req", .boolean b)] →
      CoveredComponent.tryFromItem ⟨.string name, ps⟩ = .ok (mk b)) := by
  refine ⟨⟨?_, ?_⟩, ?_, ?_⟩
  · rintro ⟨c, hc⟩
    rw [hred] at hc
    cases hfr : fetch_req ps name with
    | error e => rw [hfr] at hc; simp [Except.map] at hc
    | ok b =>
      rcases fetch_req_ok_cases hfr with ⟨hps, _⟩ | ⟨v, hps, hv⟩
      · exact Or.inl hps
      · exact Or.inr ⟨b, by rw [hps, asBoolean_eq_some hv]⟩
  · rintro (rfl | ⟨b, rfl⟩)
    · exact ⟨mk false, by rw [hred]; rfl⟩
    · exact ⟨mk b, by rw [hred]; simp [fetch_req, BareItem.asBoolean, Except.map]⟩
  · rintro rfl
    rw [hred]
    rfl
  · rintro b rfl
    rw [hred]
    simp [fetch_req, BareItem.asBoolean, Except.map]

/-- The constructor a successful parse of one of the eight boolean-`req`
derived component names produces. -/
def mkDerivedReq (s : String) (b : Bool) : CoveredComponent :=
  if s = "@authority" then .Derived (.Authority b)
  else if s = "@method" then .Derived (.Method b)
  else if s = "@path" then .Derived (.Path b)
  else if s = "@target-uri" then .Derived (.TargetUri b)
  else if s = "@request-target" then .Derived (.RequestTarget b)
  else if s = "@scheme" then .Derived (.Scheme b)
  else if s = "@status" then .Derived (.Status b)
  else .Derived (.Query b)

theorem tryFromItem_unknown_at_name {s : String} (ps : Params)
    (hstart : strStartsWith s "@" = true)
    (hmem : s ∉ ["@authority", "@method", "@path", "@target-uri", "@request-target",
      "@scheme", "@status", "@query", "@query-param"]) :
    CoveredComponent.tryFromItem ⟨.string s, ps⟩ =
      .error (.ParsingError ("Encountered invald derived component name `" ++
        s ++ "`, consult RFC 9421 for valid names")) := by
  simp only [List.mem_cons, List.mem_singleton, List.not_mem_nil, or_false] at hmem
  push_neg at hmem
  obtain ⟨h1, h2, h3, h4, h5, h6, h7, h8, h9⟩ := hmem
  simp [CoveredComponent.tryFromItem, h1, h2, h3, h4, h5, h6, h7, h8, h9, hstart]

/-- Claim C5: for the eight derived component names carrying a boolean
`req`, parsing succeeds exactly on an empty parameter set (yielding
`req = false`) or a single `req=<boolean>` entry (yielding that boolean);
and an `@`-prefixed string matching none of the nine derived component
names is a parse error. -/
theorem derived_component_req_parsing :
    (∀ s ∈ ["@authority", "@method", "@path", "@target-uri", "@request-target",
        "@scheme", "@status", "@query"], ∀ ps : Params,
      ((∃ c, CoveredComponent.tryFromItem ⟨.string s, ps⟩ = .ok c) ↔
        (ps = [] ∨ ∃ b, ps = [("req", .boolean b)])) ∧
      (ps = [] → CoveredComponent.tryFromItem ⟨.string s, ps⟩ = .ok (mkDerivedReq s false)) ∧
      (∀ b, ps = [("req", .boolean b)] →
        CoveredComponent.tryFromItem ⟨.string s, ps⟩ = .ok (mkDerivedReq s b))) ∧
    (∀ (s : String) (ps : Params), strStartsWith s "@" = true →
      s ∉ ["@authority", "@method", "@path", "@target-uri", "@request-target",
        "@scheme", "@status", "@query", "@query-param"] →
      ∃ msg, CoveredComponent.tryFromItem ⟨.string s, ps⟩ = .error (.ParsingError msg)) := by
  constructor
  · intro s hs
    simp only [List.mem_cons, List.mem_singleton, List.not_mem_nil, or_false] at hs
    rcases hs with rfl | rfl | rfl | rfl | rfl | rfl | rfl | rfl
    · exact c5_generic "@authority" (fun b => mkDerivedReq "@authority" b) (fun ps => rfl)
    · exact c5_generic "@method" (fun b => mkDerivedReq "@method" b) (fun ps => rfl)
    · exact c5_generic "@path" (fun b => mkDerivedReq "@path" b) (fun ps => rfl)
    · exact c5_generic "@target-uri" (fun b => mkDerivedReq "@target-uri" b) (fun ps => rfl)
    · exact c5_generic "@request-target" (fun b => mkDerivedReq "@request-target" b)
        (fun ps => rfl)
    · exact c5_generic "@scheme" (fun b => mkDerivedReq "@scheme" b) (fun ps => rfl)
    · exact c5_generic "@status" (fun b => mkDerivedReq "@status" b) (fun ps => rfl)
    · exact c5_generic "@query" (fun b => mkDerivedReq "@query" b) (fun ps => rfl)
  · intro s ps hstart hmem
    exact ⟨_, tryFromItem_unknown_at_name ps hstart hmem⟩

/-- Witness for C5 at a concrete input: `"@authority";req` parses to
`Authority { req: true }`, `"@authority";x` is rejected, and
`"@notacomponent"` is rejected. -/
theorem derived_component_req_parsing_witness :
    CoveredComponent.tryFromItem ⟨.string "@authority", [("req", .boolean true)]⟩ =
      .ok (.Derived (.Authority true)) ∧
    ¬(∃ c, CoveredComponent.tryFromItem
        ⟨.string "@authority", [("x", .boolean true)]⟩ = .ok c) ∧
    (∃ msg, CoveredComponent.tryFromItem ⟨.string "@notacomponent", []⟩ =
      .error (.ParsingError msg)) := by
  refine ⟨?_, ?_, ?_⟩
  · exact (derived_component_req_parsing.1 "@authority" (by decide)
      [("req", .boolean true)]).2.2 true rfl
  · intro hex
    have h := ((derived_component_req_parsing.1 "@authority" (by decide)
      [("x", .boolean true)]).1).mp hex
    revert h
    decide
  · exact derived_component_req_parsing.2 "@notacomponent" [] (by decide) (by decide)

theorem isAsciiStr_append (a b : String) :
    isAsciiStr (a ++ b) = (isAsciiStr a && isAsciiStr b) := by
  unfold isAsciiStr
  rw [String.data_append, List.all_append]

theorem intoAsciiLines_shape :
    ∀ (comps : List (CoveredComponent × String)) (lines : String) (items : List SfvItem),
    intoAsciiLines comps = .ok (lines, items) →
    comps.mapM (fun cv => cv.1.tryIntoItem) = .ok items ∧
    lines = strJoin ((items.zip comps).map fun p =>
      serializeItem p.1 ++ ": " ++ p.2.2 ++ "\n") := by
  intro comps
  induction comps with
  | nil =>
    intro lines items h
    obtain ⟨h1, h2⟩ := Prod.mk.inj (Except.ok.inj h)
    subst h1; subst h2
    exact ⟨rfl, rfl⟩
  | cons cv rest ih =>
    intro lines items h
    obtain ⟨c, v⟩ := cv
    simp only [intoAsciiLines] at h
    cases htc : c.tryIntoItem with
    | error e => rw [htc] at h; exact Except.noConfusion h
    | ok it =>
      rw [htc] at h
      cases hrest : intoAsciiLines rest with
      | error e => rw [hrest] at h; exact Except.noConfusion h
      | ok p =>
        obtain ⟨s, its⟩ := p
        rw [hrest] at h
        obtain ⟨h1, h2⟩ := Prod.mk.inj (Except.ok.inj h)
        subst h1; subst h2
        obtain ⟨hmap, hjoin⟩ := ih s its hrest
        constructor
        · rw [List.mapM_cons, htc, hmap]
          rfl
        · rw [List.zip_cons_cons, List.map_cons, hjoin]
          simp [strJoin, String.append_assoc]

theorem intoAsciiLines_nonascii :
    ∀ (comps : List (CoveredComponent × String)) (lines : String) (items : List SfvItem),
    intoAsciiLines comps = .ok (lines, items) →
    ∀ cv ∈ comps, isAsciiStr cv.2 = false → isAsciiStr lines = false := by
  intro comps
  induction comps with
  | nil =>
    intro lines items h cv hmem
    exact absurd hmem (List.not_mem_nil cv)
  | cons cv0 rest ih =>
    intro lines items h cv hmem hfalse
    obtain ⟨c, v⟩ := cv0
    simp only [intoAsciiLines] at h
    cases htc : c.tryIntoItem with
    | error e => rw [htc] at h; exact Except.noConfusion h
    | ok it =>
      rw [htc] at h
      cases hrest : intoAsciiLines rest with
      | error e => rw [hrest] at h; exact Except.noConfusion h
      | ok p =>
        obtain ⟨s, its⟩ := p
        rw [hrest] at h
        obtain ⟨h1, _⟩ := Prod.mk.inj (Except.ok.inj h)
        subst h1
        rcases List.mem_cons.mp hmem with heq | hmem'
        · subst heq
          simp only [isAsciiStr_append, hfalse, Bool.and_false, Bool.false_and]
        · have := ih s its hrest cv hmem' hfalse
          simp only [isAsciiStr_append, this, Bool.and_false, Bool.false_and]

/-- Claim C7: whenever `into_ascii` succeeds, the returned base string and
signature-params line are pure ASCII; and whenever the per-component lines
assemble but some component value string carries a non-ASCII character, the
call fails with `NonAsciiContentFound`. -/
theorem signature_base_ascii (sb : SignatureBase) :
    (∀ base line, sb.into_ascii = .ok (base, line) →
      isAsciiStr base = true ∧ isAsciiStr line = true) ∧
    (∀ lines items, intoAsciiLines sb.components = .ok (lines, items) →
      (∃ cv ∈ sb.components, isAsciiStr cv.2 = false) →
      sb.into_ascii = .error .NonAsciiContentFound) := by
  constructor
  · intro base line h
    unfold SignatureBase.into_ascii at h
    cases hl : intoAsciiLines sb.components with
    | error e => rw [hl] at h; exact Except.noConfusion h
    | ok p =>
      obtain ⟨lines, items⟩ := p
      rw [hl] at h
      have h9 : (if isAsciiStr (lines ++ "\"@signature-params\": " ++
            serializeListEntry (ListEntry.innerList ⟨items, sb.parameters.raw⟩)) = true then
          (Except.ok (lines ++ "\"@signature-params\": " ++
              serializeListEntry (ListEntry.innerList ⟨items, sb.parameters.raw⟩),
            serializeListEntry (ListEntry.innerList ⟨items, sb.parameters.raw⟩)) :
            Except ImplementationError (String × String))
          else Except.error .NonAsciiContentFound) = Except.ok (base, line) := h
      by_cases hascii : isAsciiStr (lines ++ "\"@signature-params\": " ++
          serializeListEntry (ListEntry.innerList ⟨items, sb.parameters.raw⟩)) = true
      · rw [if_pos hascii] at h9
        obtain ⟨h1, h2⟩ := Prod.mk.inj (Except.ok.inj h9)
        subst h1; subst h2
        refine ⟨hascii, ?_⟩
        rw [isAsciiStr_append] at hascii
        exact (Bool.and_eq_true_iff.mp hascii).2
      · rw [if_neg hascii] at h9
        exact Except.noConfusion h9
  · intro lines items hl ⟨cv, hmem, hfalse⟩
    have hlines := intoAsciiLines_nonascii sb.components lines items hl cv hmem hfalse
    unfold SignatureBase.into_ascii
    rw [hl]
    show (if isAsciiStr (lines ++ "\"@signature-params\": " ++
          serializeListEntry (ListEntry.innerList ⟨items, sb.parameters.raw⟩)) = true then
        (Except.ok (lines ++ "\"@signature-params\": " ++
            serializeListEntry (ListEntry.innerList ⟨items, sb.parameters.raw⟩),
          serializeListEntry (ListEntry.innerList ⟨items, sb.parameters.raw⟩)) :
          Except ImplementationError (String × String))
        else Except.error .NonAsciiContentFound) = Except.error .NonAsciiContentFound
    have hcond : isAsciiStr (lines ++ "\"@signature-params\": " ++
        serializeListEntry (ListEntry.innerList ⟨items, sb.parameters.raw⟩)) = false := by
      rw [isAsciiStr_append, isAsciiStr_append, hlines]
      simp
    rw [hcond]
    simp

/-- Witness for C7 at a concrete input: a value string containing a
non-ASCII character makes `into_ascii` fail with `NonAsciiContentFound`,
while an all-ASCII signature base is reported as ASCII. -/
theorem signature_base_ascii_witness :
    (⟨[(.Derived (.Authority false), "exämple.com")],
        SignatureParams.fromParams []⟩ : SignatureBase).into_ascii =
      .error .NonAsciiContentFound ∧
    isAsciiStr "\"@authority\": example.com\n\"@signature-params\": (\"@authority\")" = true := by
  constructor
  · exact (signature_base_ascii ⟨[(.Derived (.Authority false), "exämple.com")],
      SignatureParams.fromParams []⟩).2
      "\"@authority\": exämple.com\n" [⟨.string "@authority", []⟩] rfl
      ⟨(.Derived (.Authority false), "exämple.com"), by decide, by decide⟩
  · have h := (signature_base_ascii ⟨[(.Derived (.Authority false), "example.com")],
      SignatureParams.fromParams []⟩).1
      "\"@authority\": example.com\n\"@signature-params\": (\"@authority\")"
      "(\"@authority\")" rfl
    exact h.1

/-- Claim C1: whenever `SignatureBase::into_ascii` succeeds, the base string
is, for each covered component in order, the SFV-serialized component item,
`": "`, the value string and a newline, followed by a final
`"@signature-params": ` line holding the serialization of a single-entry
list containing an inner list of the component items with the raw
parameters attached, and no trailing newline. -/
theorem into_ascii_base_shape (comps : List (CoveredComponent × String))
    (params : SignatureParams) (base line : String)
    (h : SignatureBase.into_ascii ⟨comps, params⟩ = .ok (base, line)) :
    ∃ items : List SfvItem,
      comps.mapM (fun cv => cv.1.tryIntoItem) = .ok items ∧
      serializeList [.innerList ⟨items, params.raw⟩] = some line ∧
      base = strJoin ((items.zip comps).map fun p =>
        serializeItem p.1 ++ ": " ++ p.2.2 ++ "\n") ++ "\"@signature-params\": " ++ line := by
  unfold SignatureBase.into_ascii at h
  cases hl : intoAsciiLines comps with
  | error e => rw [hl] at h; exact Except.noConfusion h
  | ok p =>
    obtain ⟨lines, items⟩ := p
    rw [hl] at h
    have h9 : (if isAsciiStr (lines ++ "\"@signature-params\": " ++
          serializeListEntry (ListEntry.innerList ⟨items, params.raw⟩)) = true then
        (Except.ok (lines ++ "\"@signature-params\": " ++
            serializeListEntry (ListEntry.innerList ⟨items, params.raw⟩),
          serializeListEntry (ListEntry.innerList ⟨items, params.raw⟩)) :
          Except ImplementationError (String × String))
        else Except.error .NonAsciiContentFound) = Except.ok (base, line) := h
    by_cases hascii : isAsciiStr (lines ++ "\"@signature-params\": " ++
        serializeListEntry (ListEntry.innerList ⟨items, params.raw⟩)) = true
    · rw [if_pos hascii] at h9
      obtain ⟨h1, h2⟩ := Prod.mk.inj (Except.ok.inj h9)
      obtain ⟨hmap, hjoin⟩ := intoAsciiLines_shape comps lines items hl
      refine ⟨items, hmap, ?_, ?_⟩
      · rw [← h2]
        rfl
      · rw [← h1, ← h2, hjoin]
    · rw [if_neg hascii] at h9
      exact Except.noConfusion h9

/-- Witness for C1 at the concrete input of the claim: components
`@method: POST`, `@authority: example.com`, `content-length: 18` with
parameters `keyid="test"`, `created=1618884473` produce exactly the expected
signature base. -/
theorem into_ascii_base_shape_witness :
    SignatureBase.into_ascii
      ⟨[(.Derived (.Method false), "POST"),
        (.Derived (.Authority false), "example.com"),
        (.HTTP ⟨"content-length", []⟩, "18")],
        SignatureParams.fromParams
          [("keyid", .string "test"), ("created", .integer 1618884473)]⟩ =
      .ok ("\"@method\": POST\n\"@authority\": example.com\n\"content-length\": 18\n\"@signature-params\": (\"@method\" \"@authority\" \"content-length\");keyid=\"test\";created=1618884473",
        "(\"@method\" \"@authority\" \"content-length\");keyid=\"test\";created=1618884473") ∧
    (∃ items : List SfvItem,
      [(CoveredComponent.Derived (.Method false), "POST"),
        (CoveredComponent.Derived (.Authority false), "example.com"),
        (CoveredComponent.HTTP ⟨"content-length", []⟩, "18")].mapM
          (fun cv => cv.1.tryIntoItem) = .ok items ∧
      serializeList [.innerList ⟨items,
        (SignatureParams.fromParams
          [("keyid", .string "test"), ("created", .integer 1618884473)]).raw⟩] =
        some "(\"@method\" \"@authority\" \"content-length\");keyid=\"test\";created=1618884473" ∧
      "\"@method\": POST\n\"@authority\": example.com\n\"content-length\": 18\n\"@signature-params\": (\"@method\" \"@authority\" \"content-length\");keyid=\"test\";created=1618884473" =
        strJoin ((items.zip
          [(CoveredComponent.Derived (.Method false), "POST"),
            (CoveredComponent.Derived (.Authority false), "example.com"),
            (CoveredComponent.HTTP ⟨"content-length", []⟩, "18")]).map fun p =>
          serializeItem p.1 ++ ": " ++ p.2.2 ++ "\n") ++ "\"@signature-params\": " ++
          "(\"@method\" \"@authority\" \"content-length\");keyid=\"test\";created=1618884473") :=
  ⟨rfl,
    into_ascii_base_shape
      [(.Derived (.Method false), "POST"),
        (.Derived (.Authority false), "example.com"),
        (.HTTP ⟨"content-length", []⟩, "18")]
      (SignatureParams.fromParams
        [("keyid", .string "test"), ("created", .integer 1618884473)])
      "\"@method\": POST\n\"@authority\": example.com\n\"content-length\": 18\n\"@signature-params\": (\"@method\" \"@authority\" \"content-length\");keyid=\"test\";created=1618884473"
      "(\"@method\" \"@authority\" \"content-length\");keyid=\"test\";created=1618884473"
      rfl⟩

theorem innerListsOf_cons_item (l0 : String) (it : SfvItem) (rest : Dict) :
    innerListsOf ((l0, .item it) :: rest) = innerListsOf rest := rfl

theorem innerListsOf_cons_inner (l0 : String) (il0 : InnerList) (rest : Dict) :
    innerListsOf ((l0, .innerList il0) :: rest) = (l0, il0) :: innerListsOf rest := rfl

theorem find?_innerListsOf_characterization (d : Dict)
    (pick : String × InnerList → Bool) (label : String) (il : InnerList) :
    (innerListsOf d).find? pick = some (label, il) ↔
      ∃ pre post, d = pre ++ (label, ListEntry.innerList il) :: post ∧
        pick (label, il) = true ∧
        ∀ l' il', (l', ListEntry.innerList il') ∈ pre → pick (l', il') = false := by
  induction d with
  | nil =>
    simp only [innerListsOf, List.filterMap_nil, List.find?_nil]
    constructor
    · intro h
      exact absurd h (by simp)
    · rintro ⟨pre, post, hd, -, -⟩
      exact absurd hd (by simp)
  | cons q rest ih =>
    obtain ⟨l0, e0⟩ := q
    cases e0 with
    | item it =>
      rw [innerListsOf_cons_item]
      constructor
      · intro h
        obtain ⟨pre, post, hd, hpick, hpre⟩ := ih.mp h
        refine ⟨(l0, .item it) :: pre, post, by rw [hd]; rfl, hpick, ?_⟩
        intro l' il' hmem
        rcases List.mem_cons.mp hmem with heq | hmem'
        · exact absurd (Prod.mk.inj heq).2 (fun hc => ListEntry.noConfusion hc)
        · exact hpre l' il' hmem'
      · rintro ⟨pre, post, hd, hpick, hpre⟩
        cases pre with
        | nil =>
          obtain ⟨-, h2⟩ := Prod.mk.inj (List.cons.inj hd).1
          exact absurd h2 (fun hc => ListEntry.noConfusion hc)
        | cons p0 pre2 =>
          obtain ⟨-, hrest⟩ := List.cons.inj hd
          exact ih.mpr ⟨pre2, post, hrest, hpick,
            fun l' il' hm => hpre l' il' (List.mem_cons_of_mem p0 hm)⟩
    | innerList il0 =>
      rw [innerListsOf_cons_inner]
      rw [List.find?_cons]
      by_cases hp : pick (l0, il0) = true
      · rw [hp]
        constructor
        · intro h
          obtain ⟨h1, h2⟩ := Prod.mk.inj (Option.some_inj.mp h)
          subst h1; subst h2
          exact ⟨[], rest, rfl, hp, by intro l' il' hm; exact absurd hm (List.not_mem_nil _)⟩
        · rintro ⟨pre, post, hd, hpick, hpre⟩
          cases pre with
          | nil =>
            obtain ⟨h1, h2⟩ := Prod.mk.inj (List.cons.inj hd).1
            subst h1
            obtain rfl : il0 = il := by injection h2
            rfl
          | cons p0 pre2 =>
            obtain ⟨hp0, -⟩ := List.cons.inj hd
            have : pick (l0, il0) = false := by
              apply hpre l0 il0
              rw [hp0]
              exact List.mem_cons_self _ _
            rw [hp] at this
            exact absurd this (by simp)
      · rw [Bool.not_eq_true] at hp
        rw [hp]
        constructor
        · intro h
          obtain ⟨pre, post, hd, hpick, hpre⟩ := ih.mp h
          refine ⟨(l0, .innerList il0) :: pre, post, by rw [hd]; rfl, hpick, ?_⟩
          intro l' il' hmem
          rcases List.mem_cons.mp hmem with heq | hmem'
          · obtain ⟨h1, h2⟩ := Prod.mk.inj heq
            subst h1
            obtain rfl : il' = il0 := by injection h2
            exact hp
          · exact hpre l' il' hmem'
        · rintro ⟨pre, post, hd, hpick, hpre⟩
          cases pre with
          | nil =>
            obtain ⟨h1, h2⟩ := Prod.mk.inj (List.cons.inj hd).1
            subst h1
            obtain rfl : il0 = il := by injection h2
            rw [hpick] at hp
            exact absurd hp (by simp)
          | cons p0 pre2 =>
            obtain ⟨-, hrest⟩ := List.cons.inj hd
            exact ih.mpr ⟨pre2, post, hrest, hpick,
              fun l' il' hm => hpre l' il' (List.mem_cons_of_mem p0 hm)⟩

theorem exceptBind_ok {ε α β : Type} (a : α) (f : α → Except ε β) :
    (Except.ok a >>= f) = f a := rfl

theorem exceptBind_error {ε α β : Type} (e : ε) (f : α → Except ε β) :
    ((Except.error e : Except ε α) >>= f) = .error e := rfl

theorem extractSignature_ok_iff (hd : Dict) (label : String) (bytes : List Nat) :
    extractSignature hd label = .ok bytes ↔
      ∃ it : SfvItem, hd.lookup label = some (.item it) ∧
        it.bareItem = .byteSequence bytes := by
  unfold extractSignature
  cases hlk : hd.lookup label with
  | none => simp
  | some le =>
    cases le with
    | item it =>
      cases hb : it.bareItem with
      | byteSequence seq => simp [hb]
      | string s => simp [hb]
      | token t => simp [hb]
      | integer i => simp [hb]
      | boolean b => simp [hb]
    | innerList il => simp

theorem extractSignature_error_shape (hd : Dict) (label : String)
    (h : ¬∃ it : SfvItem, hd.lookup label = some (.item it) ∧
      ∃ bytes, it.bareItem = .byteSequence bytes) :
    ∃ msg, extractSignature hd label = .error (.ParsingError msg) := by
  unfold extractSignature
  cases hlk : hd.lookup label with
  | none => exact ⟨_, rfl⟩
  | some le =>
    cases le with
    | item it =>
      cases hb : it.bareItem with
      | byteSequence seq => exact absurd ⟨it, hlk, seq, hb⟩ h
      | string s =>
        exact ⟨"Invalid type for signature found, expected byte sequence", by simp [hb]⟩
      | token t =>
        exact ⟨"Invalid type for signature found, expected byte sequence", by simp [hb]⟩
      | integer i =>
        exact ⟨"Invalid type for signature found, expected byte sequence", by simp [hb]⟩
      | boolean b =>
        exact ⟨"Invalid type for signature found, expected byte sequence", by simp [hb]⟩
    | innerList il => exact ⟨_, rfl⟩

theorem parse_no_matching_inner_list (sigH d : Dict)
    (lookupComponent : CoveredComponent → Option String) (alg : Option Algorithm)
    (pick : String × InnerList → Bool)
    (h : ∀ p ∈ innerListsOf d, pick p = false) :
    MessageVerifier.parse (some sigH) (some d) lookupComponent alg pick =
      .error (.ParsingError "No matching label and signature base found") := by
  have hfind : (innerListsOf d).find? pick = none := by
    rw [List.find?_eq_none]
    intro x hx
    rw [h x hx]
    simp
  simp only [MessageVerifier.parse, hfind, exceptBind_ok, exceptBind_error]

theorem parse_propagates_signature_error (sigH d : Dict)
    (lookupComponent : CoveredComponent → Option String) (alg : Option Algorithm)
    (pick : String × InnerList → Bool) (label : String) (il : InnerList)
    (e : ImplementationError)
    (hfind : (innerListsOf d).find? pick = some (label, il))
    (hsig : extractSignature sigH label = .error e) :
    MessageVerifier.parse (some sigH) (some d) lookupComponent alg pick = .error e := by
  simp only [MessageVerifier.parse, hfind, exceptBind_ok, exceptBind_error, hsig]

/-- Claim C4: in `MessageVerifier::parse`, `Signature-Input` entries that
are not inner lists are skipped and the selector picks the first remaining
match (a parse error when none matches); the selected label is then looked
up in the `Signature` dictionary and must be present and hold an item whose
bare value is a byte sequence, any other shape being a parse error that the
parse returns. -/
theorem message_verifier_parse_stages :
    (∀ (d : Dict) (pick : String × InnerList → Bool) (label : String) (il : InnerList),
      (innerListsOf d).find? pick = some (label, il) ↔
        ∃ pre post, d = pre ++ (label, ListEntry.innerList il) :: post ∧
          pick (label, il) = true ∧
          ∀ l' il', (l', ListEntry.innerList il') ∈ pre → pick (l', il') = false) ∧
    (∀ (sigH d : Dict) (lookupComponent : CoveredComponent → Option String)
        (alg : Option Algorithm) (pick : String × InnerList → Bool),
      (∀ p ∈ innerListsOf d, pick p = false) →
      MessageVerifier.parse (some sigH) (some d) lookupComponent alg pick =
        .error (.ParsingError "No matching label and signature base found")) ∧
    (∀ (hd : Dict) (label : String) (bytes : List Nat),
      extractSignature hd label = .ok bytes ↔
        ∃ it : SfvItem, hd.lookup label = some (.item it) ∧
          it.bareItem = .byteSequence bytes) ∧
    (∀ (hd : Dict) (label : String),
      (¬∃ it : SfvItem, hd.lookup label = some (.item it) ∧
        ∃ bytes, it.bareItem = .byteSequence bytes) →
      ∃ msg, extractSignature hd label = .error (.ParsingError msg)) ∧
    (∀ (sigH d : Dict) (lookupComponent : CoveredComponent → Option String)
        (alg : Option Algorithm) (pick : String × InnerList → Bool)
        (label : String) (il : InnerList) (e : ImplementationError),
      (innerListsOf d).find? pick = some (label, il) →
      extractSignature sigH label = .error e →
      MessageVerifier.parse (some sigH) (some d) lookupComponent alg pick = .error e) :=
  ⟨find?_innerListsOf_characterization, parse_no_matching_inner_list,
    extractSignature_ok_iff, extractSignature_error_shape,
    parse_propagates_signature_error⟩

/-- Witness for C4 at concrete inputs: a `Signature-Input` dictionary whose
only inner-list entry is rejected by the selector makes `parse` fail; an
item entry is skipped by the selection stage; and a byte-sequence
`Signature` entry is extracted. -/
theorem message_verifier_parse_stages_witness :
    MessageVerifier.parse
      (some [("sig1", .item ⟨.byteSequence [1, 2], []⟩)])
      (some [("skip", .item ⟨.string "x", []⟩),
        ("sig1", .innerList ⟨[], [("tag", .string "other")]⟩)])
      (fun _ => none) (some .Ed25519)
      (fun p => containsKey p.2.params "keyid") =
      .error (.ParsingError "No matching label and signature base found") ∧
    extractSignature [("sig1", .item ⟨.byteSequence [1, 2], []⟩)] "sig1" = .ok [1, 2] ∧
    (innerListsOf [("skip", .item ⟨.string "x", []⟩),
        ("sig1", .innerList ⟨[], [("keyid", .string "k")]⟩)]).find?
      (fun p => containsKey p.2.params "keyid") = some ("sig1", ⟨[], [("keyid", .string "k")]⟩) := by
  refine ⟨?_, ?_, ?_⟩
  · exact message_verifier_parse_stages.2.1
      [("sig1", .item ⟨.byteSequence [1, 2], []⟩)]
      [("skip", .item ⟨.string "x", []⟩),
        ("sig1", .innerList ⟨[], [("tag", .string "other")]⟩)]
      (fun _ => none) (some .Ed25519) (fun p => containsKey p.2.params "keyid")
      (by decide)
  · exact (message_verifier_parse_stages.2.2.1
      [("sig1", .item ⟨.byteSequence [1, 2], []⟩)] "sig1" [1, 2]).mpr
      ⟨⟨.byteSequence [1, 2], []⟩, by decide, rfl⟩
  · exact (message_verifier_parse_stages.1
      [("skip", .item ⟨.string "x", []⟩),
        ("sig1", .innerList ⟨[], [("keyid", .string "k")]⟩)]
      (fun p => containsKey p.2.params "keyid") "sig1"
      ⟨[], [("keyid", .string "k")]⟩).mpr
      ⟨[("skip", .item ⟨.string "x", []⟩)], [], rfl, by decide,
        by intro l' il' hm; simp at hm⟩

theorem containsKey_iff (ps : Params) (k : String) :
    containsKey ps k = true ↔ ∃ v, (k, v) ∈ ps := by
  unfold containsKey
  induction ps with
  | nil => simp [List.lookup]
  | cons p rest ih =>
    obtain ⟨k', v'⟩ := p
    by_cases hk : k = k'
    · subst hk
      simp only [List.lookup, beq_self_eq_true, Option.isSome_some, true_iff]
      exact ⟨v', List.mem_cons_self _ _⟩
    · have hb : (k == k') = false := beq_eq_false_iff_ne.mpr hk
      simp only [List.lookup, hb]
      rw [ih]
      constructor
      · rintro ⟨v, hv⟩
        exact ⟨v, List.mem_cons_of_mem _ hv⟩
      · rintro ⟨v, hv⟩
        rcases List.mem_cons.mp hv with heq | hmem
        · exact absurd (Prod.mk.inj heq).1 hk
        · exact ⟨v, hmem⟩

theorem pickTag_iff (ps : Params) :
    (match (ps.lookup "tag").bind BareItem.asString with
      | some tag => decide (tag = "web-bot-auth")
      | none => false) = true ↔
      ps.lookup "tag" = some (.string "web-bot-auth") := by
  cases hlk : ps.lookup "tag" with
  | none => simp
  | some v =>
    cases v with
    | string s => simp [BareItem.asString]
    | token t => simp [BareItem.asString]
    | integer i => simp [BareItem.asString]
    | boolean b => simp [BareItem.asString]
    | byteSequence bs => simp [BareItem.asString]

theorem pickItems_iff (kd : Option String) (items : List SfvItem) :
    (items.any fun item =>
        decide (item = ⟨.string "@authority", []⟩)
          || (kd.isSome && decide (item = ⟨.string "signature-agent", []⟩))) = true ↔
      ((⟨.string "@authority", []⟩ : SfvItem) ∈ items ∨
        (kd.isSome = true ∧ (⟨.string "signature-agent", []⟩ : SfvItem) ∈ items)) := by
  rw [List.any_eq_true]
  constructor
  · rintro ⟨item, hmem, hp⟩
    rcases Bool.or_eq_true_iff.mp hp with ha | hb
    · left
      rw [decide_eq_true_eq] at ha
      rw [← ha]
      exact hmem
    · right
      obtain ⟨h1, h2⟩ := Bool.and_eq_true_iff.mp hb
      rw [decide_eq_true_eq] at h2
      rw [← h2]
      exact ⟨h1, hmem⟩
  · rintro (hmem | ⟨hkd, hmem⟩)
    · exact ⟨_, hmem, by simp⟩
    · exact ⟨_, hmem, by simp [hkd]⟩

/-- Claim C3: the web-bot-auth selector accepts a `(label, inner-list)`
entry exactly when the parameters contain all of `keyid`, `tag`, `expires`,
`created`, the `tag` parameter is the exact string `"web-bot-auth"`, and the
item list contains `"@authority"` with no parameters or, when a key
directory URL was recorded from `Signature-Agent`, `"signature-agent"` with
no parameters; and `WebBotAuthVerifier::parse` fails when no inner-list
entry satisfies the selector. -/
theorem web_bot_auth_selector :
    (∀ (kd : Option String) (label : String) (il : InnerList),
      webBotAuthPick kd (label, il) = true ↔
        ((∀ k ∈ ["keyid", "tag", "expires", "created"], ∃ v, (k, v) ∈ il.params) ∧
          il.params.lookup "tag" = some (.string "web-bot-auth") ∧
          ((⟨.string "@authority", []⟩ : SfvItem) ∈ il.items ∨
            (kd.isSome = true ∧ (⟨.string "signature-agent", []⟩ : SfvItem) ∈ il.items)))) ∧
    (∀ (agent : Option SfvItem) (sigH sigI : Dict)
        (lookupComponent : CoveredComponent → Option String) (alg : Option Algorithm),
      (∀ p ∈ innerListsOf sigI, webBotAuthPick (keyDirectoryOf agent) p = false) →
      WebBotAuthVerifier.parse agent (some sigH) (some sigI) lookupComponent alg =
        .error (.ParsingError "No matching label and signature base found")) := by
  constructor
  · intro kd label il
    unfold webBotAuthPick
    simp only [Bool.and_eq_true]
    rw [containsKey_iff, containsKey_iff, containsKey_iff, containsKey_iff,
      pickTag_iff, pickItems_iff]
    simp only [List.forall_mem_cons, List.forall_mem_nil, and_true]
    tauto
  · intro agent sigH sigI lookupComponent alg h
    have hmv := parse_no_matching_inner_list sigH sigI lookupComponent alg
      (webBotAuthPick (keyDirectoryOf agent)) h
    simp only [WebBotAuthVerifier.parse, hmv, exceptBind_error]

/-- Witness for C3 at the concrete rejection vector of the test suite: the
inner list covering `"@authority"` whose `tag` parameter is
`"not-web-bot-auth"` is rejected by the selector, so parsing fails. -/
theorem web_bot_auth_selector_witness :
    webBotAuthPick none ("sig1",
      ⟨[⟨.string "@authority", []⟩],
        [("created", .integer 1735689600),
          ("keyid", .string "poqkLGiymh_W0uP6PZFw-dvez3QJT5SolqXBCW38r0U"),
          ("alg", .string "ed25519"), ("expires", .integer 1735693200),
          ("nonce", .string "nonce-value"),
          ("tag", .string "not-web-bot-auth")]⟩) = false ∧
    WebBotAuthVerifier.parse none
      (some [("sig1", .item ⟨.byteSequence [], []⟩)])
      (some [("sig1", .innerList
        ⟨[⟨.string "@authority", []⟩],
          [("created", .integer 1735689600),
            ("keyid", .string "poqkLGiymh_W0uP6PZFw-dvez3QJT5SolqXBCW38r0U"),
            ("alg", .string "ed25519"), ("expires", .integer 1735693200),
            ("nonce", .string "nonce-value"),
            ("tag", .string "not-web-bot-auth")]⟩)])
      (fun _ => none) none =
      .error (.ParsingError "No matching label and signature base found") := by
  refine ⟨by decide, ?_⟩
  exact web_bot_auth_selector.2 none
    [("sig1", .item ⟨.byteSequence [], []⟩)]
    [("sig1", .innerList
      ⟨[⟨.string "@authority", []⟩],
        [("created", .integer 1735689600),
          ("keyid", .string "poqkLGiymh_W0uP6PZFw-dvez3QJT5SolqXBCW38r0U"),
          ("alg", .string "ed25519"), ("expires", .integer 1735693200),
          ("nonce", .string "nonce-value"),
          ("tag", .string "not-web-bot-auth")]⟩)]
    (fun _ => none) none (by decide)

theorem asString_eq_some {v : BareItem} {s : String} (h : v.asString = some s) :
    v = .string s := by
  cases v <;> simp_all [BareItem.asString]

theorem exceptMap_ok_inversion {ε α β : Type} {f : α → β} {x : Except ε α} {b : β}
    (h : x.map f = .ok b) : ∃ a, x = .ok a ∧ b = f a := by
  cases x with
  | error e => exact Except.noConfusion h
  | ok a => exact ⟨a, rfl, (Except.ok.inj h).symm⟩

theorem httpParamsFromSfv_cons_cases {k : String} {v : BareItem} {rest : Params}
    {bs sf key : Bool} {out : List HTTPFieldParameters}
    (h : httpParamsFromSfv ((k, v) :: rest) bs sf key = .ok out) :
    (k = "sf" ∧ ((v = .boolean true ∧ (bs || key) = false ∧
        ∃ out', httpParamsFromSfv rest bs true key = .ok out' ∧ out = .Sf :: out') ∨
      (v = .boolean false ∧ httpParamsFromSfv rest bs sf key = .ok out))) ∨
    (k = "bs" ∧ ((v = .boolean true ∧ (sf || key) = false ∧
        ∃ out', httpParamsFromSfv rest true sf key = .ok out' ∧ out = .Bs :: out') ∨
      (v = .boolean false ∧ httpParamsFromSfv rest bs sf key = .ok out))) ∨
    (k = "tr" ∧ ((v = .boolean true ∧
        ∃ out', httpParamsFromSfv rest bs sf key = .ok out' ∧ out = .Tr :: out') ∨
      (v = .boolean false ∧ httpParamsFromSfv rest bs sf key = .ok out))) ∨
    (k = "req" ∧ ((v = .boolean true ∧
        ∃ out', httpParamsFromSfv rest bs sf key = .ok out' ∧ out = .Req :: out') ∨
      (v = .boolean false ∧ httpParamsFromSfv rest bs sf key = .ok out))) ∨
    (k = "key" ∧ (sf || bs) = false ∧
      ∃ s out', v = .string s ∧ httpParamsFromSfv rest bs sf true = .ok out' ∧
        out = .Key s :: out') := by
  simp only [httpParamsFromSfv] at h
  by_cases hk1 : k = "sf"
  · rw [if_pos hk1] at h
    left
    refine ⟨hk1, ?_⟩
    cases hv : v.asBoolean with
    | none => rw [hv] at h; exact Except.noConfusion h
    | some b =>
      rw [hv] at h
      have hveq := asBoolean_eq_some hv
      cases b with
      | true =>
        have h2 : (if (bs || key) = true then
            (Except.error (ImplementationError.ParsingError
              "`bs`, `key` and `sf` parameter not simultaneously allowed") :
              Except ImplementationError (List HTTPFieldParameters))
          else (httpParamsFromSfv rest bs true key).map
            (fun x => HTTPFieldParameters.Sf :: x)) = Except.ok out := h
        by_cases hbk : (bs || key) = true
        · rw [if_pos hbk] at h2
          exact Except.noConfusion h2
        · have hbk2 : (bs || key) = false := by rwa [Bool.not_eq_true] at hbk
          rw [if_neg hbk] at h2
          obtain ⟨out', hout', hcons⟩ := exceptMap_ok_inversion h2
          exact Or.inl ⟨hveq, hbk2, out', hout', hcons⟩
      | false => exact Or.inr ⟨hveq, h⟩
  · rw [if_neg hk1] at h
    by_cases hk2 : k = "bs"
    · rw [if_pos hk2] at h
      right; left
      refine ⟨hk2, ?_⟩
      cases hv : v.asBoolean with
      | none => rw [hv] at h; exact Except.noConfusion h
      | some b =>
        rw [hv] at h
        have hveq := asBoolean_eq_some hv
        cases b with
        | true =>
          have h2 : (if (sf || key) = true then
              (Except.error (ImplementationError.ParsingError
                "`bs`, `key` and `sf` parameter not simultaneously allowed") :
                Except ImplementationError (List HTTPFieldParameters))
            else (httpParamsFromSfv rest true sf key).map
              (fun x => HTTPFieldParameters.Bs :: x)) = Except.ok out := h
          by_cases hbk : (sf || key) = true
          · rw [if_pos hbk] at h2
            exact Except.noConfusion h2
          · have hbk2 : (sf || key) = false := by rwa [Bool.not_eq_true] at hbk
            rw [if_neg hbk] at h2
            obtain ⟨out', hout', hcons⟩ := exceptMap_ok_inversion h2
            exact Or.inl ⟨hveq, hbk2, out', hout', hcons⟩
        | false => exact Or.inr ⟨hveq, h⟩
    · rw [if_neg hk2] at h
      by_cases hk3 : k = "tr"
      · rw [if_pos hk3] at h
        right; right; left
        refine ⟨hk3, ?_⟩
        cases hv : v.asBoolean with
        | none => rw [hv] at h; exact Except.noConfusion h
        | some b =>
          rw [hv] at h
          have hveq := asBoolean_eq_some hv
          cases b with
          | true =>
            have h2 : (httpParamsFromSfv rest bs sf key).map
                (fun x => HTTPFieldParameters.Tr :: x) = Except.ok out := h
            obtain ⟨out', hout', hcons⟩ := exceptMap_ok_inversion h2
            exact Or.inl ⟨hveq, out', hout', hcons⟩
          | false => exact Or.inr ⟨hveq, h⟩
      · rw [if_neg hk3] at h
        by_cases hk4 : k = "req"
        · rw [if_pos hk4] at h
          right; right; right; left
          refine ⟨hk4, ?_⟩
          cases hv : v.asBoolean with
          | none => rw [hv] at h; exact Except.noConfusion h
          | some b =>
            rw [hv] at h
            have hveq := asBoolean_eq_some hv
            cases b with
            | true =>
              have h2 : (httpParamsFromSfv rest bs sf key).map
                  (fun x => HTTPFieldParameters.Req :: x) = Except.ok out := h
              obtain ⟨out', hout', hcons⟩ := exceptMap_ok_inversion h2
              exact Or.inl ⟨hveq, out', hout', hcons⟩
            | false => exact Or.inr ⟨hveq, h⟩
        · rw [if_neg hk4] at h
          by_cases hk5 : k = "key"
          · rw [if_pos hk5] at h
            right; right; right; right
            refine ⟨hk5, ?_⟩
            by_cases hsb : (sf || bs) = true
            · rw [if_pos hsb] at h
              exact Except.noConfusion h
            · have hsb2 : (sf || bs) = false := by rwa [Bool.not_eq_true] at hsb
              rw [if_neg hsb] at h
              refine ⟨hsb2, ?_⟩
              cases hv : v.asString with
              | none => rw [hv] at h; exact Except.noConfusion h
              | some s =>
                rw [hv] at h
                have h2 : (httpParamsFromSfv rest bs sf true).map
                    (fun x => HTTPFieldParameters.Key s :: x) = Except.ok out := h
                obtain ⟨out', hout', hcons⟩ := exceptMap_ok_inversion h2
                exact ⟨s, out', asString_eq_some hv, hout', hcons⟩
          · rw [if_neg hk5] at h
            exact Except.noConfusion h

theorem httpParamsFromSfv_keys :
    ∀ (ps : Params) (bs sf key : Bool) (out : List HTTPFieldParameters),
    httpParamsFromSfv ps bs sf key = .ok out →
    ∀ p ∈ ps, p.1 ∈ (["sf", "bs", "tr", "req", "key"] : List String) ∧
      (p.1 ∈ (["sf", "bs", "tr", "req"] : List String) → ∃ b, p.2 = .boolean b) ∧
      (p.1 = "key" → ∃ s, p.2 = .string s) := by
  intro ps
  induction ps with
  | nil =>
    intro bs sf key out h p hp
    exact absurd hp (List.not_mem_nil p)
  | cons q rest ih =>
    intro bs sf key out h p hp
    obtain ⟨k, v⟩ := q
    rcases List.mem_cons.mp hp with rfl | hp'
    · rcases httpParamsFromSfv_cons_cases h with
        ⟨hk, (⟨hv, -, -, -, -⟩ | ⟨hv, -⟩)⟩ | ⟨hk, (⟨hv, -, -, -, -⟩ | ⟨hv, -⟩)⟩ |
        ⟨hk, (⟨hv, -, -, -⟩ | ⟨hv, -⟩)⟩ | ⟨hk, (⟨hv, -, -, -⟩ | ⟨hv, -⟩)⟩ |
        ⟨hk, -, s, -, hv, -, -⟩ <;>
      subst hk
      · exact ⟨by simp, fun _ => ⟨true, hv⟩, fun hkey => absurd hkey (by simp at hkey)⟩
      · exact ⟨by simp, fun _ => ⟨false, hv⟩, fun hkey => absurd hkey (by simp at hkey)⟩
      · exact ⟨by simp, fun _ => ⟨true, hv⟩, fun hkey => absurd hkey (by simp at hkey)⟩
      · exact ⟨by simp, fun _ => ⟨false, hv⟩, fun hkey => absurd hkey (by simp at hkey)⟩
      · exact ⟨by simp, fun _ => ⟨true, hv⟩, fun hkey => absurd hkey (by simp at hkey)⟩
      · exact ⟨by simp, fun _ => ⟨false, hv⟩, fun hkey => absurd hkey (by simp at hkey)⟩
      · exact ⟨by simp, fun _ => ⟨true, hv⟩, fun hkey => absurd hkey (by simp at hkey)⟩
      · exact ⟨by simp, fun _ => ⟨false, hv⟩, fun hkey => absurd hkey (by simp at hkey)⟩
      · exact ⟨by simp, fun hmem => absurd hmem (by simp at hmem), fun _ => ⟨s, hv⟩⟩
    · rcases httpParamsFromSfv_cons_cases h with
        ⟨-, (⟨-, -, out', hout', -⟩ | ⟨-, hrest⟩)⟩ | ⟨-, (⟨-, -, out', hout', -⟩ | ⟨-, hrest⟩)⟩ |
        ⟨-, (⟨-, out', hout', -⟩ | ⟨-, hrest⟩)⟩ | ⟨-, (⟨-, out', hout', -⟩ | ⟨-, hrest⟩)⟩ |
        ⟨-, -, s, out', -, hout', -⟩
      · exact ih _ _ _ _ hout' p hp'
      · exact ih _ _ _ _ hrest p hp'
      · exact ih _ _ _ _ hout' p hp'
      · exact ih _ _ _ _ hrest p hp'
      · exact ih _ _ _ _ hout' p hp'
      · exact ih _ _ _ _ hrest p hp'
      · exact ih _ _ _ _ hout' p hp'
      · exact ih _ _ _ _ hrest p hp'
      · exact ih _ _ _ _ hout' p hp'

theorem httpParamsFromSfv_mem :
    ∀ (ps : Params) (bs sf key : Bool) (out : List HTTPFieldParameters),
    httpParamsFromSfv ps bs sf key = .ok out →
    ((.Sf ∈ out ↔ ("sf", BareItem.boolean true) ∈ ps) ∧
     (.Bs ∈ out ↔ ("bs", BareItem.boolean true) ∈ ps) ∧
     (.Tr ∈ out ↔ ("tr", BareItem.boolean true) ∈ ps) ∧
     (.Req ∈ out ↔ ("req", BareItem.boolean true) ∈ ps)) := by
  intro ps
  induction ps with
  | nil =>
    intro bs sf key out h
    have : out = [] := (Except.ok.inj h).symm
    subst this
    simp
  | cons q rest ih =>
    intro bs sf key out h
    obtain ⟨k, v⟩ := q
    rcases httpParamsFromSfv_cons_cases h with
      ⟨hk, (⟨hv, -, out', hout', hcons⟩ | ⟨hv, hrest⟩)⟩ |
      ⟨hk, (⟨hv, -, out', hout', hcons⟩ | ⟨hv, hrest⟩)⟩ |
      ⟨hk, (⟨hv, out', hout', hcons⟩ | ⟨hv, hrest⟩)⟩ |
      ⟨hk, (⟨hv, out', hout', hcons⟩ | ⟨hv, hrest⟩)⟩ |
      ⟨hk, -, s, out', hv, hout', hcons⟩ <;>
    subst hk <;> subst hv
    · obtain ⟨ih1, ih2, ih3, ih4⟩ := ih _ _ _ _ hout'
      subst hcons
      refine ⟨by simp, ?_, ?_, ?_⟩ <;> simp +decide [ih2, ih3, ih4]
    · obtain ⟨ih1, ih2, ih3, ih4⟩ := ih _ _ _ _ hrest
      refine ⟨?_, ?_, ?_, ?_⟩ <;> simp +decide [ih1, ih2, ih3, ih4]
    · obtain ⟨ih1, ih2, ih3, ih4⟩ := ih _ _ _ _ hout'
      subst hcons
      refine ⟨?_, by simp, ?_, ?_⟩ <;> simp +decide [ih1, ih3, ih4]
    · obtain ⟨ih1, ih2, ih3, ih4⟩ := ih _ _ _ _ hrest
      refine ⟨?_, ?_, ?_, ?_⟩ <;> simp +decide [ih1, ih2, ih3, ih4]
    · obtain ⟨ih1, ih2, ih3, ih4⟩ := ih _ _ _ _ hout'
      subst hcons
      refine ⟨?_, ?_, by simp, ?_⟩ <;> simp +decide [ih1, ih2, ih4]
    · obtain ⟨ih1, ih2, ih3, ih4⟩ := ih _ _ _ _ hrest
      refine ⟨?_, ?_, ?_, ?_⟩ <;> simp +decide [ih1, ih2, ih3, ih4]
    · obtain ⟨ih1, ih2, ih3, ih4⟩ := ih _ _ _ _ hout'
      subst hcons
      refine ⟨?_, ?_, ?_, by simp⟩ <;> simp +decide [ih1, ih2, ih3]
    · obtain ⟨ih1, ih2, ih3, ih4⟩ := ih _ _ _ _ hrest
      refine ⟨?_, ?_, ?_, ?_⟩ <;> simp +decide [ih1, ih2, ih3, ih4]
    · obtain ⟨ih1, ih2, ih3, ih4⟩ := ih _ _ _ _ hout'
      subst hcons
      refine ⟨?_, ?_, ?_, ?_⟩ <;> simp +decide [ih1, ih2, ih3, ih4]

theorem httpParamsFromSfv_excl :
    ∀ (ps : Params) (bs sf key : Bool) (out : List HTTPFieldParameters),
    httpParamsFromSfv ps bs sf key = .ok out →
    ¬(sf = true ∧ bs = true) → ¬(sf = true ∧ key = true) → ¬(bs = true ∧ key = true) →
    (¬((sf = true ∨ ("sf", BareItem.boolean true) ∈ ps) ∧
       (bs = true ∨ ("bs", BareItem.boolean true) ∈ ps)) ∧
     ¬((sf = true ∨ ("sf", BareItem.boolean true) ∈ ps) ∧
       (key = true ∨ ∃ v, ("key", v) ∈ ps)) ∧
     ¬((bs = true ∨ ("bs", BareItem.boolean true) ∈ ps) ∧
       (key = true ∨ ∃ v, ("key", v) ∈ ps))) := by
  intro ps
  induction ps with
  | nil =>
    intro bs sf key out h hsb hsk hbk
    refine ⟨?_, ?_, ?_⟩ <;> simp_all
  | cons q rest ih =>
    intro bs sf key out h hsb hsk hbk
    obtain ⟨k, v⟩ := q
    rcases httpParamsFromSfv_cons_cases h with
      ⟨hk, (⟨hv, hflag, out', hout', -⟩ | ⟨hv, hrest⟩)⟩ |
      ⟨hk, (⟨hv, hflag, out', hout', -⟩ | ⟨hv, hrest⟩)⟩ |
      ⟨hk, (⟨hv, out', hout', -⟩ | ⟨hv, hrest⟩)⟩ |
      ⟨hk, (⟨hv, out', hout', -⟩ | ⟨hv, hrest⟩)⟩ |
      ⟨hk, hflag, s, out', hv, hout', -⟩ <;>
    subst hk <;> subst hv
    · obtain ⟨hbs, hkey⟩ := Bool.or_eq_false_iff.mp hflag
      subst hbs; subst hkey
      obtain ⟨e1, e2, e3⟩ := ih _ _ _ _ hout' (by simp) (by simp) (by simp)
      clear h ih hout'
      refine ⟨?_, ?_, ?_⟩ <;> simp_all +decide [List.mem_cons]
    · obtain ⟨e1, e2, e3⟩ := ih _ _ _ _ hrest hsb hsk hbk
      clear h ih hrest
      refine ⟨?_, ?_, ?_⟩ <;> simp_all +decide [List.mem_cons]
    · obtain ⟨hsf, hkey⟩ := Bool.or_eq_false_iff.mp hflag
      subst hsf; subst hkey
      obtain ⟨e1, e2, e3⟩ := ih _ _ _ _ hout' (by simp) (by simp) (by simp)
      clear h ih hout'
      refine ⟨?_, ?_, ?_⟩ <;> simp_all +decide [List.mem_cons]
    · obtain ⟨e1, e2, e3⟩ := ih _ _ _ _ hrest hsb hsk hbk
      clear h ih hrest
      refine ⟨?_, ?_, ?_⟩ <;> simp_all +decide [List.mem_cons]
    · obtain ⟨e1, e2, e3⟩ := ih _ _ _ _ hout' hsb hsk hbk
      clear h ih hout'
      refine ⟨?_, ?_, ?_⟩ <;> simp_all +decide [List.mem_cons]
    · obtain ⟨e1, e2, e3⟩ := ih _ _ _ _ hrest hsb hsk hbk
      clear h ih hrest
      refine ⟨?_, ?_, ?_⟩ <;> simp_all +decide [List.mem_cons]
    · obtain ⟨e1, e2, e3⟩ := ih _ _ _ _ hout' hsb hsk hbk
      clear h ih hout'
      refine ⟨?_, ?_, ?_⟩ <;> simp_all +decide [List.mem_cons]
    · obtain ⟨e1, e2, e3⟩ := ih _ _ _ _ hrest hsb hsk hbk
      clear h ih hrest
      refine ⟨?_, ?_, ?_⟩ <;> simp_all +decide [List.mem_cons]
    · obtain ⟨hsf, hbs⟩ := Bool.or_eq_false_iff.mp hflag
      subst hsf; subst hbs
      obtain ⟨e1, e2, e3⟩ := ih _ _ _ _ hout' (by simp) (by simp) (by simp)
      clear h ih hout'
      refine ⟨?_, ?_, ?_⟩ <;> simp_all +decide [List.mem_cons]

/-- Claim C6: parsing an SFV parameter dictionary into
`HTTPFieldParametersSet` succeeds only when every key is one of `sf`, `bs`,
`tr`, `req`, `key`; the four flag keys carry booleans and enter the parsed
sequence exactly when true; `key` carries a string; at most one of the
`sf` / `bs` / `key` group can be recorded; and the quoted example parameter
sets are rejected. -/
theorem http_field_params_validation :
    (∀ (ps : Params) (out : List HTTPFieldParameters),
      HTTPFieldParametersSet.tryFromParams ps = .ok out →
      (∀ p ∈ ps, p.1 ∈ (["sf", "bs", "tr", "req", "key"] : List String)) ∧
      (∀ p ∈ ps, (p.1 ∈ (["sf", "bs", "tr", "req"] : List String) → ∃ b, p.2 = .boolean b) ∧
        (p.1 = "key" → ∃ s, p.2 = .string s)) ∧
      ((.Sf ∈ out ↔ ("sf", BareItem.boolean true) ∈ ps) ∧
       (.Bs ∈ out ↔ ("bs", BareItem.boolean true) ∈ ps) ∧
       (.Tr ∈ out ↔ ("tr", BareItem.boolean true) ∈ ps) ∧
       (.Req ∈ out ↔ ("req", BareItem.boolean true) ∈ ps)) ∧
      ¬(("sf", BareItem.boolean true) ∈ ps ∧ ("bs", BareItem.boolean true) ∈ ps) ∧
      ¬(("sf", BareItem.boolean true) ∈ ps ∧ ∃ v, ("key", v) ∈ ps) ∧
      ¬(("bs", BareItem.boolean true) ∈ ps ∧ ∃ v, ("key", v) ∈ ps)) ∧
    HTTPFieldParametersSet.tryFromParams
      [("sf", .boolean true), ("bs", .boolean true)] =
      .error (.ParsingError "`bs`, `key` and `sf` parameter not simultaneously allowed") ∧
    HTTPFieldParametersSet.tryFromParams
      [("bs", .boolean true), ("req", .boolean true), ("tr", .boolean true),
        ("key", .string "foo")] =
      .error (.ParsingError "`bs`, `key` and `sf` parameter not simultaneously allowed") ∧
    HTTPFieldParametersSet.tryFromParams [("key", .integer 1)] =
      .error (.ParsingError
        "key parameter was present on HTTP field component, but not a string") := by
  refine ⟨?_, rfl, rfl, rfl⟩
  intro ps out h
  have hkeys := httpParamsFromSfv_keys ps false false false out h
  have hmem := httpParamsFromSfv_mem ps false false false out h
  have hexcl := httpParamsFromSfv_excl ps false false false out h
    (by simp) (by simp) (by simp)
  refine ⟨fun p hp => (hkeys p hp).1, fun p hp => (hkeys p hp).2, hmem, ?_, ?_, ?_⟩
  · rintro ⟨h1, h2⟩
    exact hexcl.1 ⟨Or.inr h1, Or.inr h2⟩
  · rintro ⟨h1, h2⟩
    exact hexcl.2.1 ⟨Or.inr h1, Or.inr h2⟩
  · rintro ⟨h1, h2⟩
    exact hexcl.2.2 ⟨Or.inr h1, Or.inr h2⟩

/-- Witness for C6 at a concrete input: `;sf` parses to the single `Sf`
tag and the key-validity consequence holds there. -/
theorem http_field_params_validation_witness :
    HTTPFieldParametersSet.tryFromParams [("sf", .boolean true)] = .ok [.Sf] ∧
    (∀ p ∈ ([("sf", BareItem.boolean true)] : Params),
      p.1 ∈ (["sf", "bs", "tr", "req", "key"] : List String)) := by
  refine ⟨rfl, ?_⟩
  exact (http_field_params_validation.1 [("sf", .boolean true)] [.Sf] rfl).1

theorem tryFromItem_http_branch {s : String} (ps : Params)
    (h : strStartsWith s "@" = false) :
    CoveredComponent.tryFromItem ⟨.string s, ps⟩ =
      (HTTPFieldParametersSet.tryFromParams ps).map
        (fun prs => .HTTP ⟨asciiLower s, prs⟩) := by
  have h1 : s ≠ "@authority" := fun hc => by subst hc; exact absurd h (by decide)
  have h2 : s ≠ "@method" := fun hc => by subst hc; exact absurd h (by decide)
  have h3 : s ≠ "@path" := fun hc => by subst hc; exact absurd h (by decide)
  have h4 : s ≠ "@target-uri" := fun hc => by subst hc; exact absurd h (by decide)
  have h5 : s ≠ "@scheme" := fun hc => by subst hc; exact absurd h (by decide)
  have h6 : s ≠ "@status" := fun hc => by subst hc; exact absurd h (by decide)
  have h7 : s ≠ "@query" := fun hc => by subst hc; exact absurd h (by decide)
  have h8 : s ≠ "@request-target" := fun hc => by subst hc; exact absurd h (by decide)
  have h9 : s ≠ "@query-param" := fun hc => by subst hc; exact absurd h (by decide)
  simp [CoveredComponent.tryFromItem, h1, h2, h3, h4, h5, h6, h7, h8, h9, h]

/-- Counterexample for C8: `TryFrom<HTTPField> for sfv::Item` does not
lowercase, so a directly constructed `HTTPField` named `Content-Length`
serializes with its name verbatim, and structural equality of `HTTPField`
values is case-sensitive. -/
theorem http_field_case_counterexample :
    HTTPField.tryIntoItem ⟨"Content-Length", []⟩ = .ok ⟨.string "Content-Length", []⟩ ∧
    serializeItem ⟨.string "Content-Length", []⟩ ≠
      serializeItem ⟨.string "content-length", []⟩ ∧
    (⟨"Content-Length", []⟩ : HTTPField) ≠ (⟨"content-length", []⟩ : HTTPField) :=
  ⟨rfl, by decide, by decide⟩

/-- Claim C8 as amended: HTTP field names are lowercased when an SFV item is
parsed into a `CoveredComponent` — two items whose field names differ only
in ASCII case parse identically, and a name supplied as `Content-Length`
emerges as `content-length` — while a directly constructed `HTTPField` is
serialized with its name verbatim (see the counterexample). -/
theorem http_field_lowercased_on_parse :
    (∀ (s1 s2 : String) (ps : Params), strStartsWith s1 "@" = false →
      strStartsWith s2 "@" = false → asciiLower s1 = asciiLower s2 →
      CoveredComponent.tryFromItem ⟨.string s1, ps⟩ =
        CoveredComponent.tryFromItem ⟨.string s2, ps⟩) ∧
    CoveredComponent.tryFromItem ⟨.string "Content-Length", []⟩ =
      .ok (.HTTP ⟨"content-length", []⟩) := by
  constructor
  · intro s1 s2 ps h1 h2 heq
    rw [tryFromItem_http_branch ps h1, tryFromItem_http_branch ps h2, heq]
  · rfl

/-- Witness for C8 (amended) at a concrete input: `Content-Length` and
`CONTENT-LENGTH` parse to the same covered component. -/
theorem http_field_lowercased_on_parse_witness :
    CoveredComponent.tryFromItem ⟨.string "Content-Length", []⟩ =
      CoveredComponent.tryFromItem ⟨.string "CONTENT-LENGTH", []⟩ :=
  http_field_lowercased_on_parse.1 "Content-Length" "CONTENT-LENGTH" []
    (by decide) (by decide) (by decide)

/-- The normalization C2 describes: the bare string (an HTTP field name, for
field components) is ASCII-lowercased; parameters are untouched. -/
def lowercaseNormalize (it : SfvItem) : SfvItem :=
  match it.bareItem with
  | .string s => ⟨.string (asciiLower s), it.params⟩
  | b => ⟨b, it.params⟩

/-- Counterexample for C2: the item `"@authority";req=?0` is accepted by the
parser (giving `req = false`), but converting back and serializing drops the
boolean-false parameter, so the round trip does not reproduce the
lowercase-normalized original serialization. -/
theorem covered_component_roundtrip_counterexample :
    CoveredComponent.tryFromItem ⟨.string "@authority", [("req", .boolean false)]⟩ =
      .ok (.Derived (.Authority false)) ∧
    CoveredComponent.tryIntoItem (.Derived (.Authority false)) =
      .ok ⟨.string "@authority", []⟩ ∧
    serializeItem ⟨.string "@authority", []⟩ = "\"@authority\"" ∧
    serializeItem (lowercaseNormalize ⟨.string "@authority", [("req", .boolean false)]⟩) =
      "\"@authority\";req=?0" ∧
    ("\"@authority\"" : String) ≠ "\"@authority\";req=?0" :=
  ⟨rfl, rfl, rfl, rfl, by decide⟩

theorem insertParam_not_mem (acc : Params) (k : String) (v : BareItem)
    (h : k ∉ acc.map Prod.fst) : insertParam acc k v = acc ++ [(k, v)] := by
  induction acc with
  | nil => rfl
  | cons p rest ih =>
    obtain ⟨k', v'⟩ := p
    simp only [List.map_cons, List.mem_cons] at h
    push_neg at h
    obtain ⟨h1, h2⟩ := h
    simp only [insertParam]
    rw [if_neg (fun hc => h1 hc.symm), ih h2]
    rfl

theorem httpParams_roundtrip :
    ∀ (ps : Params) (bs sf key req_set tr_set : Bool)
      (out : List HTTPFieldParameters) (acc : Params),
    httpParamsFromSfv ps bs sf key = .ok out →
    (ps.map Prod.fst).Nodup →
    (∀ p ∈ ps, p.2 ≠ BareItem.boolean false) →
    (∀ p ∈ ps, ∀ s, p.2 = BareItem.string s → sfvStringFromString s = some s) →
    (sf = true → "sf" ∉ ps.map Prod.fst) →
    (bs = true → "bs" ∉ ps.map Prod.fst) →
    (key = true → "key" ∉ ps.map Prod.fst) →
    (req_set = true → "req" ∉ ps.map Prod.fst) →
    (tr_set = true → "tr" ∉ ps.map Prod.fst) →
    (∀ p ∈ ps, p.1 ∉ acc.map Prod.fst) →
    httpParamsToSfv out req_set bs sf key tr_set acc = .ok (acc ++ ps) := by
  intro ps
  induction ps with
  | nil =>
    intro bs sf key req_set tr_set out acc h _ _ _ _ _ _ _ _ _
    have hout : out = [] := (Except.ok.inj h).symm
    subst hout
    simp [httpParamsToSfv]
  | cons q rest ih =>
    intro bs sf key req_set tr_set out acc h hnodup hvals hstrs hsf hbs hkey hreq htr hacc
    obtain ⟨k, v⟩ := q
    have hnd : k ∉ rest.map Prod.fst ∧ (rest.map Prod.fst).Nodup := by
      rw [List.map_cons, List.nodup_cons] at hnodup
      exact hnodup
    have haccrest : ∀ tag : String, ∀ val : BareItem, k = tag →
        ∀ p ∈ rest, p.1 ∉ ((acc ++ [(tag, val)]).map Prod.fst) := by
      intro tag val hktag p hp
      have h1 := hacc p (List.mem_cons_of_mem _ hp)
      have h2 : p.1 ≠ tag := by
        intro hc
        apply hnd.1
        rw [hktag, ← hc]
        exact List.mem_map_of_mem Prod.fst hp
      simp only [List.map_append, List.mem_append, List.map_cons, List.map_nil,
        List.mem_cons, List.not_mem_nil, or_false]
      rintro (hmem | hmem)
      · exact h1 hmem
      · exact h2 hmem
    rcases httpParamsFromSfv_cons_cases h with
      ⟨hk, (⟨hv, hflag, out', hout', hcons⟩ | ⟨hv, -⟩)⟩ |
      ⟨hk, (⟨hv, hflag, out', hout', hcons⟩ | ⟨hv, -⟩)⟩ |
      ⟨hk, (⟨hv, out', hout', hcons⟩ | ⟨hv, -⟩)⟩ |
      ⟨hk, (⟨hv, out', hout', hcons⟩ | ⟨hv, -⟩)⟩ |
      ⟨hk, hflag, s, out', hv, hout', hcons⟩
    · -- sf, boolean true
      have hacc2 := haccrest "sf" (BareItem.boolean true) hk
      subst hk; subst hv; subst hcons
      obtain ⟨hbs0, hkey0⟩ := Bool.or_eq_false_iff.mp hflag
      subst hbs0; subst hkey0
      have hsf0 : sf = false := by
        cases sf with
        | false => rfl
        | true => exact absurd (by simp) (hsf rfl)
      subst hsf0
      have hins : insertParam acc "sf" (BareItem.boolean true) =
          acc ++ [("sf", BareItem.boolean true)] :=
        insertParam_not_mem acc _ _ (hacc ("sf", BareItem.boolean true)
          (List.mem_cons_self _ _))
      show httpParamsToSfv out' req_set false true false tr_set
          (insertParam acc "sf" (BareItem.boolean true)) =
        .ok (acc ++ ("sf", BareItem.boolean true) :: rest)
      rw [hins,
        ih false true false req_set tr_set out' (acc ++ [("sf", BareItem.boolean true)])
          hout' hnd.2 (fun p hp => hvals p (List.mem_cons_of_mem _ hp))
          (fun p hp s hs => hstrs p (List.mem_cons_of_mem _ hp) s hs)
          (fun _ => hnd.1)
          (fun hc => absurd hc (by simp))
          (fun hc => absurd hc (by simp))
          (fun hc hm => hreq hc (by simp [hm]))
          (fun hc hm => htr hc (by simp [hm]))
          hacc2,
        List.append_assoc]
      rfl
    · exact absurd hv (hvals (k, v) (List.mem_cons_self _ _))
    · -- bs, boolean true
      have hacc2 := haccrest "bs" (BareItem.boolean true) hk
      subst hk; subst hv; subst hcons
      obtain ⟨hsf0, hkey0⟩ := Bool.or_eq_false_iff.mp hflag
      subst hsf0; subst hkey0
      have hbs0 : bs = false := by
        cases bs with
        | false => rfl
        | true => exact absurd (by simp) (hbs rfl)
      subst hbs0
      have hins : insertParam acc "bs" (BareItem.boolean true) =
          acc ++ [("bs", BareItem.boolean true)] :=
        insertParam_not_mem acc _ _ (hacc ("bs", BareItem.boolean true)
          (List.mem_cons_self _ _))
      show httpParamsToSfv out' req_set true false false tr_set
          (insertParam acc "bs" (BareItem.boolean true)) =
        .ok (acc ++ ("bs", BareItem.boolean true) :: rest)
      rw [hins,
        ih true false false req_set tr_set out' (acc ++ [("bs", BareItem.boolean true)])
          hout' hnd.2 (fun p hp => hvals p (List.mem_cons_of_mem _ hp))
          (fun p hp s hs => hstrs p (List.mem_cons_of_mem _ hp) s hs)
          (fun hc => absurd hc (by simp))
          (fun _ => hnd.1)
          (fun hc => absurd hc (by simp))
          (fun hc hm => hreq hc (by simp [hm]))
          (fun hc hm => htr hc (by simp [hm]))
          hacc2,
        List.append_assoc]
      rfl
    · exact absurd hv (hvals (k, v) (List.mem_cons_self _ _))
    · -- tr, boolean true
      have hacc2 := haccrest "tr" (BareItem.boolean true) hk
      subst hk; subst hv; subst hcons
      have htr0 : tr_set = false := by
        cases tr_set with
        | false => rfl
        | true => exact absurd (by simp) (htr rfl)
      subst htr0
      have hins : insertParam acc "tr" (BareItem.boolean true) =
          acc ++ [("tr", BareItem.boolean true)] :=
        insertParam_not_mem acc _ _ (hacc ("tr", BareItem.boolean true)
          (List.mem_cons_self _ _))
      show httpParamsToSfv out' req_set bs sf key true
          (insertParam acc "tr" (BareItem.boolean true)) =
        .ok (acc ++ ("tr", BareItem.boolean true) :: rest)
      rw [hins,
        ih bs sf key req_set true out' (acc ++ [("tr", BareItem.boolean true)])
          hout' hnd.2 (fun p hp => hvals p (List.mem_cons_of_mem _ hp))
          (fun p hp s hs => hstrs p (List.mem_cons_of_mem _ hp) s hs)
          (fun hc hm => hsf hc (by simp [hm]))
          (fun hc hm => hbs hc (by simp [hm]))
          (fun hc hm => hkey hc (by simp [hm]))
          (fun hc hm => hreq hc (by simp [hm]))
          (fun _ => hnd.1)
          hacc2,
        List.append_assoc]
      rfl
    · exact absurd hv (hvals (k, v) (List.mem_cons_self _ _))
    · -- req, boolean true
      have hacc2 := haccrest "req" (BareItem.boolean true) hk
      subst hk; subst hv; subst hcons
      have hreq0 : req_set = false := by
        cases req_set with
        | false => rfl
        | true => exact absurd (by simp) (hreq rfl)
      subst hreq0
      have hins : insertParam acc "req" (BareItem.boolean true) =
          acc ++ [("req", BareItem.boolean true)] :=
        insertParam_not_mem acc _ _ (hacc ("req", BareItem.boolean true)
          (List.mem_cons_self _ _))
      show httpParamsToSfv out' true bs sf key tr_set
          (insertParam acc "req" (BareItem.boolean true)) =
        .ok (acc ++ ("req", BareItem.boolean true) :: rest)
      rw [hins,
        ih bs sf key true tr_set out' (acc ++ [("req", BareItem.boolean true)])
          hout' hnd.2 (fun p hp => hvals p (List.mem_cons_of_mem _ hp))
          (fun p hp s hs => hstrs p (List.mem_cons_of_mem _ hp) s hs)
          (fun hc hm => hsf hc (by simp [hm]))
          (fun hc hm => hbs hc (by simp [hm]))
          (fun hc hm => hkey hc (by simp [hm]))
          (fun _ => hnd.1)
          (fun hc hm => htr hc (by simp [hm]))
          hacc2,
        List.append_assoc]
      rfl
    · exact absurd hv (hvals (k, v) (List.mem_cons_self _ _))
    · -- key, string s
      have hacc2 := haccrest "key" (BareItem.string s) hk
      subst hk; subst hv; subst hcons
      obtain ⟨hsf0, hbs0⟩ := Bool.or_eq_false_iff.mp hflag
      subst hsf0; subst hbs0
      have hkey0 : key = false := by
        cases key with
        | false => rfl
        | true => exact absurd (by simp) (hkey rfl)
      subst hkey0
      have hstr : sfvStringFromString s = some s :=
        hstrs ("key", BareItem.string s) (List.mem_cons_self _ _) s rfl
      have hins : insertParam acc "key" (BareItem.string s) =
          acc ++ [("key", BareItem.string s)] :=
        insertParam_not_mem acc _ _ (hacc ("key", BareItem.string s)
          (List.mem_cons_self _ _))
      show (match sfvStringFromString s with
        | none => (Except.error .ImpossibleSfvError : Except ImplementationError Params)
        | some s' => httpParamsToSfv out' req_set false false true tr_set
            (insertParam acc "key" (BareItem.string s'))) =
        .ok (acc ++ ("key", BareItem.string s) :: rest)
      rw [hstr]
      show httpParamsToSfv out' req_set false false true tr_set
          (insertParam acc "key" (BareItem.string s)) =
        .ok (acc ++ ("key", BareItem.string s) :: rest)
      rw [hins,
        ih false false true req_set tr_set out' (acc ++ [("key", BareItem.string s)])
          hout' hnd.2 (fun p hp => hvals p (List.mem_cons_of_mem _ hp))
          (fun p hp s' hs' => hstrs p (List.mem_cons_of_mem _ hp) s' hs')
          (fun hc => absurd hc (by simp))
          (fun hc => absurd hc (by simp))
          (fun _ => hnd.1)
          (fun hc hm => hreq hc (by simp [hm]))
          (fun hc hm => htr hc (by simp [hm]))
          hacc2,
        List.append_assoc]
      rfl

theorem queryParamsFromSfv_cons_cases {k : String} {v : BareItem} {rest : Params}
    {req_seen name_seen : Bool} {out : List QueryParamParameters}
    (h : queryParamsFromSfv ((k, v) :: rest) req_seen name_seen = .ok out) :
    (k = "req" ∧ ((v = .boolean true ∧ req_seen = false ∧
        ∃ out', queryParamsFromSfv rest true name_seen = .ok out' ∧ out = .Req :: out') ∨
      (v = .boolean false ∧ queryParamsFromSfv rest req_seen name_seen = .ok out))) ∨
    (k = "name" ∧ name_seen = false ∧
      ∃ s out', v = .string s ∧ queryParamsFromSfv rest req_seen true = .ok out' ∧
        out = .Name s :: out') := by
  simp only [queryParamsFromSfv] at h
  by_cases hk1 : k = "req"
  · rw [if_pos hk1] at h
    left
    refine ⟨hk1, ?_⟩
    cases hv : v.asBoolean with
    | none => rw [hv] at h; exact Except.noConfusion h
    | some b =>
      rw [hv] at h
      have hveq := asBoolean_eq_some hv
      cases b with
      | true =>
        have h2 : (if req_seen = true then
            (Except.error (ImplementationError.ParsingError
              "`req` parameter not allowed as duplicate") :
              Except ImplementationError (List QueryParamParameters))
          else (queryParamsFromSfv rest true name_seen).map
            (fun x => QueryParamParameters.Req :: x)) = Except.ok out := h
        by_cases hrs : req_seen = true
        · rw [if_pos hrs] at h2
          exact Except.noConfusion h2
        · have hrs2 : req_seen = false := by rwa [Bool.not_eq_true] at hrs
          rw [if_neg hrs] at h2
          obtain ⟨out', hout', hcons⟩ := exceptMap_ok_inversion h2
          exact Or.inl ⟨hveq, hrs2, out', hout', hcons⟩
      | false => exact Or.inr ⟨hveq, h⟩
  · rw [if_neg hk1] at h
    by_cases hk2 : k = "name"
    · rw [if_pos hk2] at h
      right
      refine ⟨hk2, ?_⟩
      cases hv : v.asString with
      | none => rw [hv] at h; exact Except.noConfusion h
      | some s =>
        rw [hv] at h
        have h2 : (if name_seen = true then
            (Except.error (ImplementationError.ParsingError
              "`name` parameter not allowed as duplicate") :
              Except ImplementationError (List QueryParamParameters))
          else (queryParamsFromSfv rest req_seen true).map
            (fun x => QueryParamParameters.Name s :: x)) = Except.ok out := h
        by_cases hns : name_seen = true
        · rw [if_pos hns] at h2
          exact Except.noConfusion h2
        · have hns2 : name_seen = false := by rwa [Bool.not_eq_true] at hns
          rw [if_neg hns] at h2
          obtain ⟨out', hout', hcons⟩ := exceptMap_ok_inversion h2
          exact ⟨hns2, s, out', asString_eq_some hv, hout', hcons⟩
    · rw [if_neg hk2] at h
      exact Except.noConfusion h

theorem queryParams_roundtrip :
    ∀ (ps : Params) (req_seen name_seen : Bool)
      (out : List QueryParamParameters) (acc : Params),
    queryParamsFromSfv ps req_seen name_seen = .ok out →
    (ps.map Prod.fst).Nodup →
    (∀ p ∈ ps, p.2 ≠ BareItem.boolean false) →
    (∀ p ∈ ps, ∀ s, p.2 = BareItem.string s → sfvStringFromString s = some s) →
    (∀ p ∈ ps, p.1 ∉ acc.map Prod.fst) →
    queryParamsToSfv out req_seen name_seen acc = .ok (acc ++ ps) := by
  intro ps
  induction ps with
  | nil =>
    intro req_seen name_seen out acc h _ _ _ _
    have hout : out = [] := (Except.ok.inj h).symm
    subst hout
    simp [queryParamsToSfv]
  | cons q rest ih =>
    intro req_seen name_seen out acc h hnodup hvals hstrs hacc
    obtain ⟨k, v⟩ := q
    have hnd : k ∉ rest.map Prod.fst ∧ (rest.map Prod.fst).Nodup := by
      rw [List.map_cons, List.nodup_cons] at hnodup
      exact hnodup
    have haccrest : ∀ tag : String, ∀ val : BareItem, k = tag →
        ∀ p ∈ rest, p.1 ∉ ((acc ++ [(tag, val)]).map Prod.fst) := by
      intro tag val hktag p hp
      have h1 := hacc p (List.mem_cons_of_mem _ hp)
      have h2 : p.1 ≠ tag := by
        intro hc
        apply hnd.1
        rw [hktag, ← hc]
        exact List.mem_map_of_mem Prod.fst hp
      simp only [List.map_append, List.mem_append, List.map_cons, List.map_nil,
        List.mem_cons, List.not_mem_nil, or_false]
      rintro (hmem | hmem)
      · exact h1 hmem
      · exact h2 hmem
    rcases queryParamsFromSfv_cons_cases h with
      ⟨hk, (⟨hv, hrs, out', hout', hcons⟩ | ⟨hv, -⟩)⟩ |
      ⟨hk, hns, s, out', hv, hout', hcons⟩
    · have hacc2 := haccrest "req" (BareItem.boolean true) hk
      subst hk; subst hv; subst hcons; subst hrs
      have hins : insertParam acc "req" (BareItem.boolean true) =
          acc ++ [("req", BareItem.boolean true)] :=
        insertParam_not_mem acc _ _ (hacc ("req", BareItem.boolean true)
          (List.mem_cons_self _ _))
      show queryParamsToSfv out' true name_seen
          (insertParam acc "req" (BareItem.boolean true)) =
        .ok (acc ++ ("req", BareItem.boolean true) :: rest)
      rw [hins,
        ih true name_seen out' (acc ++ [("req", BareItem.boolean true)])
          hout' hnd.2 (fun p hp => hvals p (List.mem_cons_of_mem _ hp))
          (fun p hp s hs => hstrs p (List.mem_cons_of_mem _ hp) s hs)
          hacc2,
        List.append_assoc]
      rfl
    · exact absurd hv (hvals (k, v) (List.mem_cons_self _ _))
    · have hacc2 := haccrest "name" (BareItem.string s) hk
      subst hk; subst hv; subst hcons; subst hns
      have hstr : sfvStringFromString s = some s :=
        hstrs ("name", BareItem.string s) (List.mem_cons_self _ _) s rfl
      have hins : insertParam acc "name" (BareItem.string s) =
          acc ++ [("name", BareItem.string s)] :=
        insertParam_not_mem acc _ _ (hacc ("name", BareItem.string s)
          (List.mem_cons_self _ _))
      show (match sfvStringFromString s with
        | none => (Except.error (ImplementationError.ParsingError
            ("Could not coerce `@query-param` parameter `" ++ s ++
              "` into a valid sfv Parameter")) : Except ImplementationError Params)
        | some s' => queryParamsToSfv out' req_seen true
            (insertParam acc "name" (BareItem.string s'))) =
        .ok (acc ++ ("name", BareItem.string s) :: rest)
      rw [hstr]
      show queryParamsToSfv out' req_seen true
          (insertParam acc "name" (BareItem.string s)) =
        .ok (acc ++ ("name", BareItem.string s) :: rest)
      rw [hins,
        ih req_seen true out' (acc ++ [("name", BareItem.string s)])
          hout' hnd.2 (fun p hp => hvals p (List.mem_cons_of_mem _ hp))
          (fun p hp s' hs' => hstrs p (List.mem_cons_of_mem _ hp) s' hs')
          hacc2,
        List.append_assoc]
      rfl

theorem charOfNat_toNat_of_lt {n : Nat} (h : n < 55296) : (Char.ofNat n).toNat = n := by
  unfold Char.ofNat
  rw [dif_pos (Or.inl h : Nat.isValidChar n)]
  unfold Char.ofNatAux Char.toNat
  simp [UInt32.toNat, UInt32.ofNat', BitVec.toNat_ofNat]

theorem validSfvStringChar_asciiLowerChar {c : Char} (h : validSfvStringChar c = true) :
    validSfvStringChar (asciiLowerChar c) = true := by
  unfold validSfvStringChar at h ⊢
  obtain ⟨h1, h2⟩ := Bool.and_eq_true_iff.mp h
  rw [decide_eq_true_eq] at h1 h2
  unfold asciiLowerChar
  by_cases hc : 65 ≤ c.toNat ∧ c.toNat ≤ 90
  · rw [if_pos hc]
    rw [charOfNat_toNat_of_lt (by omega)]
    simp only [Bool.and_eq_true, decide_eq_true_eq]
    omega
  · rw [if_neg hc]
    simp only [Bool.and_eq_true, decide_eq_true_eq]
    omega

theorem sfvStringFromString_asciiLower {s : String}
    (h : sfvStringFromString s = some s) :
    sfvStringFromString (asciiLower s) = some (asciiLower s) := by
  unfold sfvStringFromString at h ⊢
  by_cases hall : s.data.all validSfvStringChar = true
  · rw [if_pos ?_]
    show (asciiLower s).data.all validSfvStringChar = true
    show (s.data.map asciiLowerChar).all validSfvStringChar = true
    rw [List.all_map]
    rw [List.all_eq_true] at hall ⊢
    intro c hc
    exact validSfvStringChar_asciiLowerChar (hall c hc)
  · rw [if_neg hall] at h
    exact Option.noConfusion h

theorem roundtrip_req_name (name : String) (mk : Bool → DerivedComponent)
    (hred : ∀ ps : Params, CoveredComponent.tryFromItem ⟨.string name, ps⟩ =
      (fetch_req ps name).map (fun r => .Derived (mk r)))
    (hser : ∀ b, DerivedComponent.tryIntoItem (mk b) = derivedTemplate name b)
    (hlow : asciiLower name = name)
    (hvalid : sfvStringFromString name = some name)
    (ps : Params) (c : CoveredComponent)
    (hvals : ∀ p ∈ ps, p.2 ≠ BareItem.boolean false)
    (hok : CoveredComponent.tryFromItem ⟨.string name, ps⟩ = .ok c) :
    ∃ it2, CoveredComponent.tryIntoItem c = .ok it2 ∧
      serializeItem it2 = serializeItem (lowercaseNormalize ⟨.string name, ps⟩) := by
  rw [hred] at hok
  obtain ⟨b, hfr, hc⟩ := exceptMap_ok_inversion hok
  subst hc
  rcases fetch_req_ok_cases hfr with ⟨hps, hb⟩ | ⟨v, hps, hv⟩
  · subst hps; subst hb
    refine ⟨⟨.string name, []⟩, ?_, ?_⟩
    · show DerivedComponent.tryIntoItem (mk false) = _
      rw [hser]
      unfold derivedTemplate
      rw [hvalid]
      rfl
    · show serializeItem ⟨.string name, []⟩ =
        serializeItem ⟨.string (asciiLower name), []⟩
      rw [hlow]
  · subst hps
    have hveq := asBoolean_eq_some hv
    subst hveq
    have hb : b = true := by
      cases b with
      | true => rfl
      | false => exact absurd rfl (hvals ("req", .boolean false) (List.mem_cons_self _ _))
    subst hb
    refine ⟨⟨.string name, [("req", .boolean true)]⟩, ?_, ?_⟩
    · show DerivedComponent.tryIntoItem (mk true) = _
      rw [hser]
      unfold derivedTemplate
      rw [hvalid]
      rfl
    · show serializeItem ⟨.string name, [("req", .boolean true)]⟩ =
        serializeItem ⟨.string (asciiLower name), [("req", .boolean true)]⟩
      rw [hlow]

/-- Claim C2 as amended: for every syntactically valid covered-component SFV
item none of whose parameters carries the boolean value `false` (the parser
drops boolean-false parameters, so they cannot round-trip), parsing into a
`CoveredComponent` and converting back yields an item whose serialization is
the lowercase-normalized original serialization: the HTTP field name
lowercased, parameter names, order and values unchanged. -/
theorem covered_component_roundtrip (it : SfvItem) (c : CoveredComponent)
    (hkeys : (it.params.map Prod.fst).Nodup)
    (hvals : ∀ p ∈ it.params, p.2 ≠ BareItem.boolean false)
    (hstrs : ∀ p ∈ it.params, ∀ s, p.2 = BareItem.string s →
      sfvStringFromString s = some s)
    (hname : ∀ s, it.bareItem = .string s → sfvStringFromString s = some s)
    (hok : CoveredComponent.tryFromItem it = .ok c) :
    ∃ it2, CoveredComponent.tryIntoItem c = .ok it2 ∧
      serializeItem it2 = serializeItem (lowercaseNormalize it) := by
  obtain ⟨bare, ps⟩ := it
  cases bare with
  | token t => exact Except.noConfusion hok
  | integer i => exact Except.noConfusion hok
  | boolean b => exact Except.noConfusion hok
  | byteSequence bs => exact Except.noConfusion hok
  | string s =>
    simp only at hkeys hvals hstrs
    by_cases h1 : s = "@authority"
    · subst h1
      exact roundtrip_req_name "@authority" DerivedComponent.Authority
        (fun ps2 => rfl) (fun b => rfl) (by decide) rfl ps c hvals hok
    · by_cases h2 : s = "@method"
      · subst h2
        exact roundtrip_req_name "@method" DerivedComponent.Method
          (fun ps2 => rfl) (fun b => rfl) (by decide) rfl ps c hvals hok
      · by_cases h3 : s = "@path"
        · subst h3
          exact roundtrip_req_name "@path" DerivedComponent.Path
            (fun ps2 => rfl) (fun b => rfl) (by decide) rfl ps c hvals hok
        · by_cases h4 : s = "@target-uri"
          · subst h4
            exact roundtrip_req_name "@target-uri" DerivedComponent.TargetUri
              (fun ps2 => rfl) (fun b => rfl) (by decide) rfl ps c hvals hok
          · by_cases h5 : s = "@scheme"
            · subst h5
              exact roundtrip_req_name "@scheme" DerivedComponent.Scheme
                (fun ps2 => rfl) (fun b => rfl) (by decide) rfl ps c hvals hok
            · by_cases h6 : s = "@status"
              · subst h6
                exact roundtrip_req_name "@status" DerivedComponent.Status
                  (fun ps2 => rfl) (fun b => rfl) (by decide) rfl ps c hvals hok
              · by_cases h7 : s = "@query"
                · subst h7
                  exact roundtrip_req_name "@query" DerivedComponent.Query
                    (fun ps2 => rfl) (fun b => rfl) (by decide) rfl ps c hvals hok
                · by_cases h8 : s = "@request-target"
                  · subst h8
                    exact roundtrip_req_name "@request-target"
                      DerivedComponent.RequestTarget
                      (fun ps2 => rfl) (fun b => rfl) (by decide) rfl ps c hvals hok
                  · by_cases h9 : s = "@query-param"
                    · subst h9
                      have hok2 : (QueryParamParametersSet.tryFromParams ps).map
                          (fun qp => CoveredComponent.Derived (.QueryParams qp)) =
                          .ok c := hok
                      obtain ⟨qp, hqp, hc⟩ := exceptMap_ok_inversion hok2
                      subst hc
                      have hq := queryParams_roundtrip ps false false qp []
                        hqp hkeys hvals hstrs (fun p hp => by simp)
                      rw [List.nil_append] at hq
                      refine ⟨⟨.string "@query-param", ps⟩, ?_, ?_⟩
                      · show (queryParamsToSfv qp false false []) >>=
                          (fun ps2 => Except.ok
                            (⟨BareItem.string "@query-param", ps2⟩ : SfvItem)) = _
                        rw [hq]
                        rfl
                      · show serializeItem ⟨.string "@query-param", ps⟩ =
                          serializeItem ⟨.string (asciiLower "@query-param"), ps⟩
                        rw [show asciiLower "@query-param" = "@query-param" from by decide]
                    · by_cases hat : strStartsWith s "@" = true
                      · rw [tryFromItem_unknown_at_name ps hat
                          (by simp [h1, h2, h3, h4, h5, h6, h7, h8, h9])] at hok
                        exact Except.noConfusion hok
                      · have hat2 : strStartsWith s "@" = false := by
                          rwa [Bool.not_eq_true] at hat
                        rw [tryFromItem_http_branch ps hat2] at hok
                        obtain ⟨prs, hprs, hc⟩ := exceptMap_ok_inversion hok
                        subst hc
                        have hn : sfvStringFromString (asciiLower s) =
                            some (asciiLower s) :=
                          sfvStringFromString_asciiLower (hname s rfl)
                        have hps2 : HTTPFieldParametersSet.tryIntoParams prs = .ok ps := by
                          unfold HTTPFieldParametersSet.tryIntoParams
                          have := httpParams_roundtrip ps false false false false false
                            prs [] hprs hkeys hvals hstrs
                            (fun hc2 => absurd hc2 Bool.false_ne_true)
                            (fun hc2 => absurd hc2 Bool.false_ne_true)
                            (fun hc2 => absurd hc2 Bool.false_ne_true)
                            (fun hc2 => absurd hc2 Bool.false_ne_true)
                            (fun hc2 => absurd hc2 Bool.false_ne_true)
                            (fun p hp => by simp)
                          rwa [List.nil_append] at this
                        refine ⟨⟨.string (asciiLower s), ps⟩, ?_, rfl⟩
                        show HTTPField.tryIntoItem ⟨asciiLower s, prs⟩ =
                          Except.ok ⟨.string (asciiLower s), ps⟩
                        simp only [HTTPField.tryIntoItem, hn, hps2, exceptBind_ok]

/-- Witness for C2 (amended) at a concrete input: `"Content-Length";key="foo"`
parses, converts back, and serializes to the lowercase-normalized original. -/
theorem covered_component_roundtrip_witness :
    CoveredComponent.tryFromItem ⟨.string "Content-Length", [("key", .string "foo")]⟩ =
      .ok (.HTTP ⟨"content-length", [.Key "foo"]⟩) ∧
    (∃ it2, CoveredComponent.tryIntoItem (.HTTP ⟨"content-length", [.Key "foo"]⟩) =
        .ok it2 ∧
      serializeItem it2 = serializeItem (lowercaseNormalize
        ⟨.string "Content-Length", [("key", .string "foo")]⟩)) := by
  refine ⟨rfl, covered_component_roundtrip
    ⟨.string "Content-Length", [("key", .string "foo")]⟩
    (.HTTP ⟨"content-length", [.Key "foo"]⟩)
    (by decide) (by decide) ?_ ?_ rfl⟩
  · intro p hp s hs
    rw [List.mem_singleton] at hp
    subst hp
    have hfoo : "foo" = s := by injection hs
    subst hfoo
    rfl
  · intro s hs
    have hcl : "Content-Length" = s := by injection hs
    subst hcl
    rfl
